import Mathlib

/-!
# Verification of the javeed-ordio deterministic shift allocator

This file gives a shallow embedding, in Lean 4, of the core of the
`allocation_core` package (time utilities, preference parsing/evaluation,
role scoring, the candidate evaluator `_score_candidate`, the allocation
engine `generate_plan`) and of the `_gini` helper of `javeed_ordio/compare.py`,
together with theorems settling the frozen specification claims.

Modelling conventions:
* Python `float` values are idealised as rationals (`ℚ`); `round(x, k)` is
  modelled as rounding `x·10^k` to the nearest integer (the source operates on
  binary floats with round-half-to-even; no claim in scope depends on the
  halfway behaviour).
* Python strings are Lean `String`s, but every operation on them is defined
  here on the underlying character list, so that all definitions reduce inside
  the kernel.  Unicode NFKD normalisation (used by `canonical_name` and
  `_norm_text`) is the identity on ASCII and is modelled as such; `ß → ss`
  replacement likewise only affects non-ASCII input.
* Python `dict`s are association lists with Python's insertion-order and
  overwrite semantics; `set`s are lists used only through membership.
* Functions that would raise on malformed ISO dates (`date.fromisoformat`)
  are totalised with the default date `0001-01-01`; no claim in scope depends
  on the behaviour at unparseable dates.
-/

/- The Batteries rational-number operations are `@[irreducible]`; make them
locally semireducible so that concrete witness computations are checkable by
`decide`. -/
attribute [local semireducible] Rat.mul Rat.add Rat.sub Rat.inv Rat.ofScientific

/-! ## Character and string helpers -/

/-- ASCII lower-casing of one character (models `str.lower` on ASCII input). -/
def asciiLower (c : Char) : Char :=
  if 'A' ≤ c ∧ c ≤ 'Z' then Char.ofNat (c.toNat + 32) else c

/-- `str.lower()` on the ASCII fragment. -/
def pyLower (s : String) : String :=
  String.mk (s.data.map asciiLower)

/-- Is the character in `[a-z0-9]`?  (Used by `canonical_name`.) -/
def isLowerAlnum (c : Char) : Bool :=
  ('a' ≤ c ∧ c ≤ 'z') ∨ ('0' ≤ c ∧ c ≤ '9')

/-- Python `\s` on the ASCII fragment. -/
def isPySpace (c : Char) : Bool :=
  c = ' ' ∨ c = '\t' ∨ c = '\n' ∨ c = '\r' ∨ c = '\x0b' ∨ c = '\x0c'

/-- `str.strip()` : drop leading and trailing whitespace. -/
def pyStrip (s : String) : String :=
  String.mk (((s.data.dropWhile isPySpace).reverse.dropWhile isPySpace).reverse)

/-- Worker for `replaceRuns`: the flag records whether the previous character
was part of a run being replaced. -/
def replaceRunsGo (p : Char → Bool) (r : Char) : Bool → List Char → List Char
  | _, [] => []
  | inRun, c :: cs =>
    if p c then
      if inRun then replaceRunsGo p r true cs
      else r :: replaceRunsGo p r true cs
    else c :: replaceRunsGo p r false cs

/-- Replace each maximal run of characters satisfying `p` by the single
character `r` (models `re.sub(p+, r, ·)`). -/
def replaceRuns (p : Char → Bool) (r : Char) (l : List Char) : List Char :=
  replaceRunsGo p r false l

/-- `canonical_name` from `allocation_core/allocator.py`: NFKD-normalise
(identity on ASCII), lower-case, strip, replace `[^a-z0-9]+` runs by a single
space, collapse whitespace runs. -/
def canonical_name (value : String) : String :=
  let s := (pyStrip (pyLower value)).data
  let s := replaceRuns (fun c => !(isLowerAlnum c)) ' ' s
  let s := replaceRuns isPySpace ' ' s
  String.mk s

/-- `_norm_text` from `allocation_core/preferences.py`: NFKD-normalise
(identity on ASCII), lower-case, collapse whitespace, strip. -/
def norm_text (value : String) : String :=
  pyStrip (String.mk (replaceRuns isPySpace ' ' (pyLower value).data))

/-- Boolean prefix test on character lists. -/
def isPrefixOfCL : List Char → List Char → Bool
  | [], _ => true
  | _ :: _, [] => false
  | a :: as, b :: bs => a = b && isPrefixOfCL as bs

/-- Boolean infix (substring) test on character lists (models Python `in`). -/
def isInfixOfCL (needle : List Char) : List Char → Bool
  | [] => needle.isEmpty
  | c :: cs => isPrefixOfCL needle (c :: cs) || isInfixOfCL needle cs

/-- Python substring test `needle in hay` on strings. -/
def pyIn (needle hay : String) : Bool :=
  isInfixOfCL needle.data hay.data

/-- Three-way comparison of characters by code point. -/
def chCmp (a b : Char) : Ordering :=
  if a.toNat < b.toNat then .lt else if b.toNat < a.toNat then .gt else .eq

/-- Lexicographic three-way comparison of character lists (Python string
comparison by code point). -/
def listCmpC : List Char → List Char → Ordering
  | [], [] => .eq
  | [], _ :: _ => .lt
  | _ :: _, [] => .gt
  | a :: as, b :: bs =>
    match chCmp a b with
    | .eq => listCmpC as bs
    | o => o

/-- Python string three-way comparison. -/
def strCmp (a b : String) : Ordering :=
  listCmpC a.data b.data

/-- Python `a <= b` on strings. -/
def pyStrLE (a b : String) : Bool :=
  strCmp a b ≠ Ordering.gt

/-- Parse a list of decimal digit characters (all characters must be digits). -/
def digitsToNat? : List Char → Option ℕ
  | [] => none
  | cs =>
    if cs.all (fun c => c.isDigit) then
      some (cs.foldl (fun acc c => acc * 10 + (c.toNat - '0'.toNat)) 0)
    else none

/-- Decimal representation of a natural number, left-padded with zeros to
width `w`. -/
def padNum (n w : ℕ) : List Char :=
  let ds := Nat.toDigits 10 n
  List.replicate (w - ds.length) '0' ++ ds

/-! ## Time utilities (`allocation_core/time_utils.py`) -/

/-- `parse_hhmm_to_minutes`: strict `HH:MM` (0–23 h, 0–59 min) to minutes after
midnight, `none` otherwise. -/
def parse_hhmm_to_minutes (value : String) : Option ℕ :=
  match value.data.splitOn ':' with
  | [hh, mm] =>
    match digitsToNat? hh, digitsToNat? mm with
    | some h, some m => if h ≤ 23 ∧ m ≤ 59 then some (h * 60 + m) else none
    | _, _ => none
  | _ => none

/-- `calc_shift_hours`: shift duration in decimal hours, wrapping overnight
shifts at midnight; `0` for unparseable endpoints. -/
def calc_shift_hours (start end_ : String) : ℚ :=
  match parse_hhmm_to_minutes start, parse_hhmm_to_minutes end_ with
  | some s, some e =>
    let diff : ℤ := (e : ℤ) - (s : ℤ)
    let diff := if diff < 0 then diff + 24 * 60 else diff
    (diff : ℚ) / 60
  | _, _ => 0

/-- Sub-intervals of a 0–1440 circle interval, splitting overnight spans at
midnight (the `intervals` helper inside `time_overlap`). -/
def overnightIntervals (start end_ : ℕ) : List (ℕ × ℕ) :=
  if start < end_ then [(start, end_)] else [(start, 24 * 60), (0, end_)]

/-- `time_overlap`: do two `HH:MM` ranges overlap (overnight supported)?
Unparseable endpoints make the ranges non-overlapping. -/
def time_overlap (start_a end_a start_b end_b : String) : Bool :=
  match parse_hhmm_to_minutes start_a, parse_hhmm_to_minutes end_a,
        parse_hhmm_to_minutes start_b, parse_hhmm_to_minutes end_b with
  | some a0, some a1, some b0, some b1 =>
    (overnightIntervals a0 a1).any fun x =>
      (overnightIntervals b0 b1).any fun y =>
        max x.1 y.1 < min x.2 y.2
  | _, _, _, _ => false

/-- Insert a label into a label set if absent (Python `set.add`). -/
def addLabel (l : List String) (x : String) : List String :=
  if x ∈ l then l else l ++ [x]

/-- `shift_labels`: coarse "frueh"/"spaet" labels from the shift type substring
and the start/end times. -/
def shift_labels (shift_type start end_ : String) : List String :=
  let typ := pyLower shift_type
  let labels : List String := []
  let labels := if pyIn "frueh" typ then addLabel labels "frueh" else labels
  let labels := if pyIn "spaet" typ then addLabel labels "spaet" else labels
  let labels :=
    match parse_hhmm_to_minutes start with
    | some start_min =>
      let labels := if start_min < 11 * 60 then addLabel labels "frueh" else labels
      if start_min ≥ 16 * 60 then addLabel labels "spaet" else labels
    | none => labels
  match parse_hhmm_to_minutes end_ with
  | some end_min => if end_min ≥ 21 * 60 then addLabel labels "spaet" else labels
  | none => labels

/-! ## Proleptic Gregorian calendar (models `datetime.date`) -/

/-- Is `y` a leap year? -/
def isLeapYear (y : ℕ) : Bool :=
  y % 4 = 0 ∧ (y % 100 ≠ 0 ∨ y % 400 = 0)

/-- Month lengths for a (non-)leap year. -/
def monthLengths (leap : Bool) : List ℕ :=
  [31, if leap then 29 else 28, 31, 30, 31, 30, 31, 31, 30, 31, 30, 31]

/-- Days in the year strictly before month `m` (1-based). -/
def daysBeforeMonth (m : ℕ) (leap : Bool) : ℕ :=
  ((monthLengths leap).take (m - 1)).sum

/-- `date.toordinal()`: day count with `0001-01-01 = 1`. -/
def dateToOrdinal (y m d : ℕ) : ℕ :=
  365 * (y - 1) + (y - 1) / 4 + (y - 1) / 400 + daysBeforeMonth m (isLeapYear y) + d
    - (y - 1) / 100

/-- Find `(month, day)` from a 0-based day-of-year offset. -/
def findMonthDay : List ℕ → ℕ → ℕ → ℕ × ℕ
  | [], m, n => (m, n + 1)
  | len :: rest, m, n => if n < len then (m, n + 1) else findMonthDay rest (m + 1) (n - len)

/-- `date.fromordinal()`: inverse of `dateToOrdinal` (CPython's `_ord2ymd`). -/
def ordinalToDate (ord : ℕ) : ℕ × ℕ × ℕ :=
  let n := ord - 1
  let n400 := n / 146097
  let n := n % 146097
  let n100 := n / 36524
  let n := n % 36524
  let n4 := n / 1461
  let n := n % 1461
  let n1 := n / 365
  let n := n % 365
  let year := n400 * 400 + n100 * 100 + n4 * 4 + n1 + 1
  if n1 = 4 ∨ n100 = 4 then (year - 1, 12, 31)
  else
    let md := findMonthDay (monthLengths (isLeapYear year)) 1 n
    (year, md.1, md.2)

/-- Parse `YYYY-MM-DD`; CPython's `date.fromisoformat` raises on malformed
input, which is totalised here to the default date `(1, 1, 1)`. -/
def parseDate (s : String) : ℕ × ℕ × ℕ :=
  match s.data.splitOn '-' with
  | [y, m, d] =>
    match digitsToNat? y, digitsToNat? m, digitsToNat? d with
    | some yv, some mv, some dv => (yv, mv, dv)
    | _, _, _ => (1, 1, 1)
  | _ => (1, 1, 1)

/-- Ordinal of an ISO date string. -/
def parseDateOrdinal (s : String) : ℕ :=
  let ymd := parseDate s
  dateToOrdinal ymd.1 ymd.2.1 ymd.2.2

/-- `date.weekday()`: Monday = 0. -/
def ordinalWeekday (ord : ℕ) : ℕ :=
  (ord + 6) % 7

/-- Weekday of an ISO date string (Monday = 0). -/
def dateWeekday (s : String) : ℕ :=
  ordinalWeekday (parseDateOrdinal s)

/-- `date.isoformat()` of an ordinal day number. -/
def ordinalToIso (ord : ℕ) : String :=
  let ymd := ordinalToDate ord
  String.mk (padNum ymd.1 4 ++ ['-'] ++ padNum ymd.2.1 2 ++ ['-'] ++ padNum ymd.2.2 2)

/-! ## Keys (`month_key`, `week_key`) -/

/-- `month_key`: first 7 characters of the ISO date (`YYYY-MM`). -/
def month_key (datum : String) : String :=
  String.mk (datum.data.take 7)

/-- `week_key`: ISO date of the Monday of the date's week. -/
def week_key (datum : String) : String :=
  let ord := parseDateOrdinal datum
  ordinalToIso (ord - ordinalWeekday ord)

/-! ## Preference parsing and evaluation (`allocation_core/preferences.py`) -/

/-- Preference flags (the dict produced by `parse_simple_shift_preferences`
and consumed by `evaluate_shift_preferences`).  A `none` / `false` field is an
absent dict key; the parser only ever stores truthy values, so dict emptiness
coincides with all fields being absent. -/
structure Prefs where
  no_weekend : Bool := false
  only_weekend : Bool := false
  prefer : Option String := none
  max_shifts_week : Option ℕ := none
  earliest : Option ℕ := none
  latest : Option ℕ := none
  allowed_days : Option (List ℕ) := none
  blocked_days : Option (List ℕ) := none
  earliest_scope : Option String := none
  latest_scope : Option String := none
  frueh_scope : Option String := none
  spaet_scope : Option String := none
deriving DecidableEq

/-- Python truthiness of the preference dict (`if not prefs`). -/
def Prefs.isEmptyDict (p : Prefs) : Bool :=
  !p.no_weekend ∧ !p.only_weekend ∧ p.prefer = none ∧ p.max_shifts_week = none ∧
  p.earliest = none ∧ p.latest = none ∧ p.allowed_days = none ∧
  p.blocked_days = none ∧ p.earliest_scope = none ∧ p.latest_scope = none ∧
  p.frueh_scope = none ∧ p.spaet_scope = none

/-- Match, at the current position, a digit group followed by the literal
`suffix`, on whitespace-collapsed text (where `\s+` is exactly one space and
`\s*` at most one).  The digit group is the maximal digit run (greedy `\d+` /
`\d{1,k}`: on collapsed text a shorter match would leave a digit before the
separator, so no backtracking case survives; a run longer than `maxDigits`
fails).  `spaceRequired` distinguishes `\s+suffix` from `\s*suffix`. -/
def matchNumThenSuffix (maxDigits : Option ℕ) (spaceRequired : Bool)
    (suffix : List Char) (cs : List Char) : Option ℕ :=
  let run := cs.takeWhile (fun c => c.isDigit)
  let rest := cs.drop run.length
  if run = [] then none
  else if (match maxDigits with | some k => decide (run.length ≤ k) | none => true : Bool) then
    if (if spaceRequired then isPrefixOfCL (' ' :: suffix) rest
        else isPrefixOfCL suffix rest || isPrefixOfCL (' ' :: suffix) rest) then
      digitsToNat? run
    else none
  else none

/-- Leftmost `re.search` for `prefixPat (\d…) \s suffix` patterns on
whitespace-collapsed text. -/
def searchNumPattern (prefixPat : List Char) (maxDigits : Option ℕ)
    (spaceRequired : Bool) (suffix : List Char) : List Char → Option ℕ
  | [] => none
  | c :: cs =>
    if isPrefixOfCL prefixPat (c :: cs) then
      match matchNumThenSuffix maxDigits spaceRequired suffix ((c :: cs).drop prefixPat.length) with
      | some n => some n
      | none => searchNumPattern prefixPat maxDigits spaceRequired suffix cs
    else searchNumPattern prefixPat maxDigits spaceRequired suffix cs

/-- `parse_simple_shift_preferences`: conservative parser of free-text note
hints into preference flags.  The regexes of the source act on
whitespace-collapsed, lower-cased text, so `\s+` matches exactly one space. -/
def parse_simple_shift_preferences (note_text : String) : Prefs :=
  if note_text = "" then {} else
  let text := norm_text note_text
  let prefs : Prefs := {}
  let prefs := if pyIn "kein wochenende" text || pyIn "nicht wochenende" text then
    { prefs with no_weekend := true } else prefs
  let prefs := if pyIn "nur wochenende" text then
    { prefs with only_weekend := true } else prefs
  let prefs := if pyIn "lieber fruh" text || pyIn "bevorzugt fruh" text then
    { prefs with prefer := some "frueh" } else prefs
  let prefs := if pyIn "lieber spat" text || pyIn "bevorzugt spat" text then
    { prefs with prefer := some "spaet" } else prefs
  let prefs :=
    match searchNumPattern "max ".data none true "schicht".data text.data with
    | some n => { prefs with max_shifts_week := some n }
    | none => prefs
  let prefs :=
    match searchNumPattern "ab ".data (some 2) false "uhr".data text.data with
    | some n => { prefs with earliest := some (n * 60) }
    | none => prefs
  match searchNumPattern "bis ".data (some 2) false "uhr".data text.data with
  | some n => { prefs with latest := some (n * 60) }
  | none => prefs

/-- `_is_preference_scope_active`. -/
def is_preference_scope_active (scope : String) (is_weekend : Bool) : Bool :=
  if scope = "" ∨ scope = "always" then true
  else if scope = "weekend" then is_weekend
  else false

/-- `_resolve_preference_targets`. -/
def resolve_preference_targets (prefs : Prefs) (is_weekend : Bool) : List String :=
  let targets : List String := []
  let targets :=
    match prefs.prefer with
    | some p => if p = "frueh" ∨ p = "spaet" then addLabel targets p else targets
    | none => targets
  let targets :=
    match prefs.frueh_scope with
    | some scope => if is_preference_scope_active scope is_weekend then addLabel targets "frueh" else targets
    | none => targets
  match prefs.spaet_scope with
  | some scope => if is_preference_scope_active scope is_weekend then addLabel targets "spaet" else targets
  | none => targets

/-- `evaluate_shift_preferences`: returns `(score_delta, violation_codes)`.
The six violation checks of the source append their codes (and bump the
day/time counters) in program order; they are transcribed here as six
condition flags feeding the code list and the two counters. -/
def evaluate_shift_preferences (prefs : Prefs) (shift_type date_iso start end_ : String)
    (preference_bonus day_violation_penalty time_violation_penalty : ℚ)
    (violation_mode : String) (flat_violation_penalty : Option ℚ) : ℚ × List String :=
  if prefs.isEmptyDict then (0, []) else
  let weekday := dateWeekday date_iso
  let is_weekend := weekday ≥ 5
  let start_min := parse_hhmm_to_minutes start
  let end_min := parse_hhmm_to_minutes end_
  let cAllowed : Bool :=
    match prefs.allowed_days with
    | some days => weekday ∉ days
    | none => false
  let cBlocked : Bool :=
    match prefs.blocked_days with
    | some days => weekday ∈ days
    | none => false
  let cNoWeekend : Bool := prefs.no_weekend ∧ is_weekend
  let cOnlyWeekend : Bool := prefs.only_weekend ∧ ¬is_weekend
  let cEarly : Bool :=
    match prefs.earliest, start_min with
    | some e, some sm =>
      sm < e ∧ is_preference_scope_active (prefs.earliest_scope.getD "always") is_weekend
    | _, _ => false
  let cLate : Bool :=
    match prefs.latest, end_min with
    | some l, some em =>
      em > l ∧ is_preference_scope_active (prefs.latest_scope.getD "always") is_weekend
    | _, _ => false
  let day_violations : ℕ :=
    (if cAllowed then 1 else 0) + (if cBlocked then 1 else 0) +
    (if cNoWeekend then 1 else 0) + (if cOnlyWeekend then 1 else 0)
  let time_violations : ℕ := (if cEarly then 1 else 0) + (if cLate then 1 else 0)
  let violations : List String :=
    (if cAllowed then ["allowed_days"] else []) ++
    (if cBlocked then ["blocked_days"] else []) ++
    (if cNoWeekend then ["no_weekend"] else []) ++
    (if cOnlyWeekend then ["only_weekend"] else []) ++
    (if cEarly then ["starts_too_early"] else []) ++
    (if cLate then ["ends_too_late"] else [])
  if violations ≠ [] then
    if violation_mode = "flat" then
      (flat_violation_penalty.getD day_violation_penalty, violations)
    else
      ((day_violations : ℚ) * day_violation_penalty + (time_violations : ℚ) * time_violation_penalty,
       violations)
  else
    let labels := shift_labels shift_type start end_
    let targets := resolve_preference_targets prefs is_weekend
    if labels.any (fun x => x ∈ targets) then (preference_bonus, [])
    else (0, [])

/-! ## Role scoring (`allocation_core/roles.py`) -/

/-- `compute_role_match_score`: exact, affinity, and fallback levels. -/
def compute_role_match_score (role shift_type : String)
    (affinity_map : List (String × List String))
    (exact_score affinity_score partial_score : ℚ) : ℚ :=
  let role_norm := pyStrip (pyLower role)
  let shift_norm := pyStrip (pyLower shift_type)
  if role_norm = "" ∨ shift_norm = "" then partial_score
  else if pyIn role_norm shift_norm || pyIn shift_norm role_norm then exact_score
  else
    match (affinity_map.find? (fun kv => kv.1 = role_norm)).map Prod.snd with
    | some affinity =>
      if affinity ≠ [] ∧ shift_norm ∈ affinity then exact_score
      else if affinity_map.any (fun kv => pyIn kv.1 role_norm ∧ shift_norm ∈ kv.2) then
        affinity_score
      else partial_score
    | none =>
      if affinity_map.any (fun kv => pyIn kv.1 role_norm ∧ shift_norm ∈ kv.2) then
        affinity_score
      else partial_score

/-! ## Generic containers: stable sort, Python dicts as association lists -/

/-- Insert into a sorted list, before the first element `b` with `le a b`
(stable insertion). -/
def insertSortedB {α : Type} (le : α → α → Bool) (a : α) : List α → List α
  | [] => [a]
  | b :: bs => if le a b then a :: b :: bs else b :: insertSortedB le a bs

/-- Stable sort by a boolean comparator (for a total preorder `le` this is a
stable ascending sort, matching Python's `sorted`). -/
def sortByB {α : Type} (le : α → α → Bool) : List α → List α
  | [] => []
  | a :: as => insertSortedB le a (sortByB le as)

theorem perm_insertSortedB {α : Type} (le : α → α → Bool) (a : α) (l : List α) :
    List.Perm (insertSortedB le a l) (a :: l) := by
  induction l with
  | nil => exact List.Perm.refl _
  | cons b bs ih =>
    unfold insertSortedB
    by_cases h : le a b
    · rw [if_pos h]
    · rw [if_neg h]
      exact (ih.cons b).trans (List.Perm.swap a b bs)

theorem perm_sortByB {α : Type} (le : α → α → Bool) (l : List α) :
    List.Perm (sortByB le l) l := by
  induction l with
  | nil => exact List.Perm.refl _
  | cons a as ih => exact (perm_insertSortedB le a (sortByB le as)).trans (ih.cons a)

theorem mem_sortByB {α : Type} (le : α → α → Bool) (x : α) (l : List α) :
    x ∈ sortByB le l ↔ x ∈ l :=
  (perm_sortByB le l).mem_iff

theorem length_sortByB {α : Type} (le : α → α → Bool) (l : List α) :
    (sortByB le l).length = l.length :=
  (perm_sortByB le l).length_eq

/-- Python's `sorted(set(xs))` for strings. -/
def sortedSet (l : List String) : List String :=
  sortByB pyStrLE l.dedup

theorem mem_sortedSet (x : String) (l : List String) :
    x ∈ sortedSet l ↔ x ∈ l := by
  rw [sortedSet, mem_sortByB, List.mem_dedup]

/-- Association-list lookup with a default (Python `dict.get(k, d)` /
`defaultdict` read). -/
def alGet {α β : Type} [DecidableEq α] : List (α × β) → α → β → β
  | [], _, d => d
  | p :: l, k, d => if p.1 = k then p.2 else alGet l k d

/-- Python `k in dict`. -/
def alHas {α β : Type} [DecidableEq α] : List (α × β) → α → Bool
  | [], _ => false
  | p :: l, k => p.1 = k || alHas l k

/-- Python `dict[k] = f(dict.get(k, d))` with insertion-order semantics: an
existing key keeps its position, a new key is appended. -/
def alUpdate {α β : Type} [DecidableEq α] (l : List (α × β)) (k : α) (d : β) (f : β → β) :
    List (α × β) :=
  if alHas l k then l.map (fun p => if p.1 = k then (k, f p.2) else p)
  else l ++ [(k, f d)]

/-- Python `dict[k] = v` with insertion-order semantics. -/
def alSet {α β : Type} [DecidableEq α] (l : List (α × β)) (k : α) (v : β) : List (α × β) :=
  alUpdate l k v (fun _ => v)

theorem alGet_map_update_ne {α β : Type} [DecidableEq α] (l : List (α × β)) (k k' : α)
    (d' : β) (f : β → β) (h : k' ≠ k) :
    alGet (l.map (fun p => if p.1 = k then (k, f p.2) else p)) k' d' = alGet l k' d' := by
  induction l with
  | nil => simp [alGet]
  | cons p l ih =>
    by_cases hp : p.1 = k
    · have hpk : p.1 ≠ k' := fun hc => h (hc.symm.trans hp)
      simp [alGet, hp, Ne.symm h, hpk, ih]
    · by_cases hp' : p.1 = k' <;> simp [alGet, hp, hp', h, ih]

theorem alGet_append_single_ne {α β : Type} [DecidableEq α] (l : List (α × β)) (k k' : α)
    (v : β) (d' : β) (h : k' ≠ k) :
    alGet (l ++ [(k, v)]) k' d' = alGet l k' d' := by
  induction l with
  | nil => simp [alGet, Ne.symm h]
  | cons p l ih => by_cases hp : p.1 = k' <;> simp [alGet, hp, ih]

theorem alGet_alUpdate_same {α β : Type} [DecidableEq α] (l : List (α × β)) (k : α)
    (d : β) (f : β → β) : alGet (alUpdate l k d f) k d = f (alGet l k d) := by
  induction l with
  | nil => simp [alUpdate, alHas, alGet]
  | cons p l ih =>
    by_cases hp : p.1 = k
    · rw [alUpdate, if_pos (by simp [alHas, hp])]
      simp [alGet, hp]
    · by_cases hl : alHas l k = true
      · rw [alUpdate, if_pos (by simp [alHas, hp, hl])]
        rw [alUpdate, if_pos hl] at ih
        simpa [alGet, hp] using ih
      · rw [alUpdate, if_neg (by simp [alHas, hp, hl])]
        rw [alUpdate, if_neg hl] at ih
        simpa [alGet, hp] using ih

theorem alGet_alUpdate_ne {α β : Type} [DecidableEq α] (l : List (α × β)) (k k' : α)
    (d d' : β) (f : β → β) (h : k' ≠ k) :
    alGet (alUpdate l k d f) k' d' = alGet l k' d' := by
  unfold alUpdate
  by_cases hl : alHas l k = true
  · rw [if_pos hl]
    exact alGet_map_update_ne l k k' d' f h
  · rw [if_neg hl]
    exact alGet_append_single_ne l k k' (f d) d' h

/-! ## Data model (`allocation_core/allocator.py`) -/

/-- An employee record from the input snapshot.  `none` / `""` model absent or
falsy dict fields. -/
structure Employee where
  ordio_employee_id : String := ""
  full_name : String := ""
  first_name : String := ""
  username : String := ""
  role : String := ""
  employment : String := ""
  hourly_wage : Option ℚ := none
  max_salary : Option ℚ := none
  skills : List String := []
deriving DecidableEq

/-- A per-employee rule from the constraint profile (absent keys are `none` /
`false`; an absent rule is the default value). -/
structure EmployeeRule where
  target_weekly_hours : Option ℚ := none
  max_monthly_hours : Option ℚ := none
  max_weekly_hours : Option ℚ := none
  max_additional_monthly_hours : Option ℚ := none
  no_additional_shifts : Bool := false
  disable_max_hours : Bool := false
  preferred_working_areas : List String := []
  preferred_shift_types : List String := []
  notes : String := ""
deriving DecidableEq

/-- A normalised shift (existing-history or run-assigned): the dicts with keys
`date`/`start`/`end`/`hours` built by `_collect_existing_shifts` and by the
run-state update. -/
structure Shift where
  date : String
  start : String
  end_ : String
  hours : ℚ
deriving DecidableEq

/-- A raw `assigned_shifts` row of the snapshot. -/
structure AssignedShift where
  ordio_employee_id : String := ""
  date : String := ""
  start : String := ""
  end_ : String := ""
  hours : Option ℚ := none
deriving DecidableEq

/-- An open slot from the snapshot. -/
structure OpenSlot where
  slot_id : String := ""
  ordio_shift_id : String := ""
  date : String := ""
  start : String := ""
  end_ : String := ""
  shift_type : String := ""
  working_area : String := ""
  note : String := ""
  applicant_employee_ids : List String := []
  hours : Option ℚ := none
deriving DecidableEq

/-- An absence row of the snapshot. -/
structure Absence where
  ordio_employee_id : String := ""
  start_date : String := ""
  end_date : String := ""
deriving DecidableEq

/-- The input snapshot consumed by `generate_plan`. -/
structure Snapshot where
  snapshot_id : String := ""
  betrieb : String := ""
  employees : List Employee := []
  assigned_shifts : List AssignedShift := []
  open_shifts : List OpenSlot := []
  absences : List Absence := []
deriving DecidableEq

/-- The profile policy dict (only the keys the engine reads). -/
structure Policy where
  prefer_applicants : Option Bool := none
  max_consecutive_days : Option ℤ := none
deriving DecidableEq

/-- A constraint profile: policy plus per-employee rules keyed by raw name. -/
structure Profile where
  description : String := ""
  policy : Policy := {}
  employee_rules : List (String × EmployeeRule) := []
deriving DecidableEq

/-- `SCORING` weights (module-level constants). -/
def SCORING_applicant_bonus : ℚ := 80
def SCORING_rest_max : ℚ := 40
def SCORING_fairness_max : ℚ := 30
def SCORING_role_exact : ℚ := 20
def SCORING_role_partial : ℚ := 10
def SCORING_fixed_bonus : ℚ := 12
def SCORING_pref_bonus : ℚ := 15
def SCORING_skill_bonus : ℚ := 12
def SCORING_salary_warning_penalty : ℚ := -12

/-- `ROLE_AFFINITY` (Python dict of sets, in insertion order). -/
def ROLE_AFFINITY : List (String × List String) :=
  [("service", ["frueh", "normal", "spaet", "doppel", "service", "theke"]),
   ("kellner", ["frueh", "normal", "spaet", "service", "theke"]),
   ("bar", ["spaet", "normal", "bar", "theke"]),
   ("koch", ["frueh", "normal", "spaet", "kueche"]),
   ("kueche", ["frueh", "normal", "spaet", "kueche"])]

/-- Python `round(x, 2)` (idealised to exact rounding of rationals). -/
def round2 (x : ℚ) : ℚ :=
  (round (x * 100) : ℚ) / 100

/-- Python `round(x, 1)`. -/
def round1 (x : ℚ) : ℚ :=
  (round (x * 10) : ℚ) / 10

/-- `float(s.get("hours") or calc_shift_hours(...))` for a normalised shift
(`0` is falsy in Python). -/
def shiftHoursOr (s : Shift) : ℚ :=
  if s.hours = 0 then calc_shift_hours s.start s.end_ else s.hours

/-- `float(slot.get("hours") or calc_shift_hours(...))` for an open slot. -/
def slotHours (slot : OpenSlot) : ℚ :=
  match slot.hours with
  | some h => if h = 0 then calc_shift_hours slot.start slot.end_ else h
  | none => calc_shift_hours slot.start slot.end_

/-- `_hours_in_month`. -/
def hours_in_month (shifts : List Shift) (month : String) : ℚ :=
  (shifts.filter (fun s => month_key s.date = month)).foldr (fun s acc => shiftHoursOr s + acc) 0

/-- `_hours_in_week`. -/
def hours_in_week (shifts : List Shift) (wk : String) : ℚ :=
  (shifts.filter (fun s => week_key s.date = wk)).foldr (fun s acc => shiftHoursOr s + acc) 0

/-- `_count_shifts_in_week`. -/
def count_shifts_in_week (shifts : List Shift) (wk : String) : ℕ :=
  (shifts.filter (fun s => week_key s.date = wk)).length

/-- `_effective_monthly_cap`: the contractual monthly-hours cap, `none` when
caps are disabled. -/
def effective_monthly_cap (emp : Employee) (rule : EmployeeRule) : Option ℚ :=
  if rule.disable_max_hours then none
  else match rule.max_monthly_hours with
  | some m => some m
  | none =>
    match rule.target_weekly_hours with
    | some t => some (t * (433 / 100))
    | none =>
      let employment := canonical_name emp.employment
      let wage := emp.hourly_wage.getD 0
      let max_salary := emp.max_salary.getD 0
      if pyIn "mini" employment then
        some (if wage > 0 ∧ max_salary > 0 then min 43 (max_salary / wage) else 43)
      else if pyIn "werki" employment || pyIn "werk" employment then
        some (20 * (433 / 100))
      else if wage > 0 ∧ max_salary > 0 then some (max_salary / wage)
      else some 160

/-- `_effective_weekly_cap`. -/
def effective_weekly_cap (emp : Employee) (rule : EmployeeRule) : ℚ :=
  match rule.max_weekly_hours with
  | some w => w
  | none =>
    let employment := canonical_name emp.employment
    if pyIn "werki" employment || pyIn "werk" employment then 20 else 48

/-- `_target_hours_for_scoring`. -/
def target_hours_for_scoring (emp : Employee) (rule : EmployeeRule) : Option ℚ :=
  match rule.target_weekly_hours with
  | some t => some (t * (433 / 100))
  | none =>
    match rule.max_monthly_hours with
    | some m => some m
    | none => effective_monthly_cap emp rule

/-- `_has_absence`: does any absence range contain the date (inclusive,
compared as ISO strings)? -/
def has_absence (absences : List Absence) (slot_date : String) : Bool :=
  absences.any fun a => pyStrLE a.start_date slot_date ∧ pyStrLE slot_date a.end_date

/-- `_derive_fixed_patterns`: Counter of `(employee, weekday, start, end)`
over assigned history, restricted to count ≥ 3 at lookup time. -/
def derive_fixed_patterns (assigned_shifts : List AssignedShift) :
    List ((String × ℕ × String × String) × ℕ) :=
  assigned_shifts.foldl
    (fun counts s =>
      if s.ordio_employee_id = "" ∨ s.date = "" then counts
      else
        let key := (s.ordio_employee_id, dateWeekday s.date, s.start, s.end_)
        alUpdate counts key 0 (· + 1))
    []

/-- `_fixed_shift_bonus` (the `>= 3` filter of `_derive_fixed_patterns` is
applied here, at membership-test time). -/
def fixed_shift_bonus (fixed_patterns : List ((String × ℕ × String × String) × ℕ))
    (emp_id : String) (slot : OpenSlot) : ℚ :=
  let wd := dateWeekday slot.date
  if alGet fixed_patterns (emp_id, wd, slot.start, slot.end_) 0 ≥ 3 then
    SCORING_fixed_bonus
  else 0

/-- `_collect_existing_shifts`: history rows of one employee, hours
normalised. -/
def collect_existing_shifts (snapshot : Snapshot) (emp_id : String) : List Shift :=
  (snapshot.assigned_shifts.filter (fun s => s.ordio_employee_id = emp_id)).map fun s =>
    { date := s.date, start := s.start, end_ := s.end_,
      hours := match s.hours with
               | some h => if h = 0 then calc_shift_hours s.start s.end_ else h
               | none => calc_shift_hours s.start s.end_ }

/-- One direction of the consecutive-working-days walk of `_arbzg_violations`:
count how many consecutive days, starting next to `d` and moving backward or
forward, are in `working`.  The Python `while` loop terminates because each
step consumes a distinct member of the (finite) working-day set, so a fuel of
`working.length` is exact. -/
def streakGo (working : List String) (forward : Bool) (d : ℕ) : ℕ → ℕ
  | 0 => 0
  | fuel + 1 =>
    let nd := if forward then d + 1 else d - 1
    if ordinalToIso nd ∈ working then 1 + streakGo working forward nd fuel else 0

/-- Backward/forward consecutive-day count from ordinal `ord`. -/
def streakCount (working : List String) (ord : ℕ) (forward : Bool) : ℕ :=
  streakGo working forward ord working.length

/-- `_arbzg_violations`: the obligatory German-labor-law checks for one
candidate slot against the union of existing and run shifts. -/
def arbzg_violations (existing run : List Shift) (slot : OpenSlot)
    (weekly_limit : ℚ) (max_consecutive_days : ℤ) : List String :=
  let all_shifts := existing ++ run
  let datum := slot.date
  let start := slot.start
  let end_ := slot.end_
  let hours := slotHours slot
  let sameDay := all_shifts.filter (fun s => s.date = datum)
  let overlapViolations :=
    sameDay.foldr
      (fun s acc => (if time_overlap start end_ s.start s.end_ then ["overlap_same_day"] else []) ++ acc)
      []
  let day_hours := hours + sameDay.foldr (fun s acc => s.hours + acc) 0
  let dailyViolations := if day_hours > 10 then ["daily_hours_gt_10"] else []
  let wk := week_key datum
  let week_hours := hours + hours_in_week all_shifts wk
  let weeklyViolations := if week_hours > weekly_limit then ["weekly_hours_limit"] else []
  let ord := parseDateOrdinal datum
  let prev_day := ordinalToIso (ord - 1)
  let next_day := ordinalToIso (ord + 1)
  let slot_start := (parse_hhmm_to_minutes start).getD 0
  let slot_end := (parse_hhmm_to_minutes end_).getD 0
  let restViolations :=
    all_shifts.foldr
      (fun s acc =>
        (if s.date = prev_day ∧ (24 * 60 - ((parse_hhmm_to_minutes s.end_).getD 0 : ℤ)) + slot_start < 11 * 60
         then ["rest_lt_11h"] else []) ++
        (if s.date = next_day ∧ (24 * 60 - (slot_end : ℤ)) + ((parse_hhmm_to_minutes s.start).getD 0 : ℤ) < 11 * 60
         then ["rest_lt_11h"] else []) ++ acc)
      []
  let working_days := (datum :: (all_shifts.filter (fun s => s.date ≠ "")).map (·.date)).dedup
  let consecViolations :=
    let streak := 1 + streakCount working_days ord false + streakCount working_days ord true
    if (streak : ℤ) > max_consecutive_days then ["consecutive_days_limit"] else []
  sortedSet (overlapViolations ++ dailyViolations ++ weeklyViolations ++ restViolations ++ consecViolations)

/-- `_role_score`. -/
def role_score (employee : Employee) (slot : OpenSlot) : ℚ :=
  compute_role_match_score (canonical_name employee.role) (canonical_name slot.shift_type)
    ROLE_AFFINITY SCORING_role_exact SCORING_role_exact SCORING_role_partial

/-- `_skill_score`. -/
def skill_score (employee : Employee) (slot : OpenSlot) (rule : EmployeeRule) : ℚ :=
  let tags := [canonical_name slot.shift_type, canonical_name slot.working_area]
  let skills := employee.skills.map canonical_name
  let pref_areas := rule.preferred_working_areas.map canonical_name
  if tags.any (fun t => t ∈ skills) then SCORING_skill_bonus
  else if tags.any (fun t => t ∈ pref_areas) then SCORING_skill_bonus
  else 0

/-- `_preference_score_and_violations` (the allocator's fixed penalty
parameters for `evaluate_shift_preferences`). -/
def preference_score_and_violations (prefs : Prefs) (slot : OpenSlot) : ℚ × List String :=
  evaluate_shift_preferences prefs slot.shift_type slot.date slot.start slot.end_
    SCORING_pref_bonus (-35) (-35) "flat" (some (-35))

/-- The label attached to one non-zero score component by the reasoning loop
of `_score_candidate`. -/
def reasonLabel (key : String) (value : ℚ) : Option String :=
  if key = "applicant" ∧ value > 0 then some "applied_for_shift"
  else if key = "rest" ∧ value > 0 then some "remaining_target_hours"
  else if key = "fairness" ∧ value > 0 then some "fair_distribution"
  else if key = "role" ∧ value > 0 then some "role_shift_match"
  else if key = "skill" ∧ value > 0 then some "skill_working_area_match"
  else if key = "fixed" ∧ value > 0 then some "historical_fixed_pattern"
  else if key = "preference" ∧ value > 0 then some "matches_employee_preferences"
  else if key = "salary" ∧ value < 0 then some "near_salary_limit"
  else none

/-- The reasoning loop: walk the components (already sorted by descending
absolute value), skip zeros, append a label when one applies, stop once three
reasons are collected. -/
def buildReasons : List (String × ℚ) → List String → List String
  | [], acc => acc
  | (k, v) :: rest, acc =>
    if v = 0 then buildReasons rest acc
    else
      let acc' := match reasonLabel k v with
                  | some lab => acc ++ [lab]
                  | none => acc
      if acc'.length ≥ 3 then acc' else buildReasons rest acc'

/-- The score breakdown (`score_detail` dict; its keys are fixed, in insertion
order `rest, fairness, role, skill, fixed, preference, applicant, salary`). -/
structure ScoreDetail where
  rest : ℚ
  fairness : ℚ
  role : ℚ
  skill : ℚ
  fixed : ℚ
  preference : ℚ
  applicant : ℚ
  salary : ℚ
deriving DecidableEq

/-- `score_detail.items()` in dict insertion order. -/
def ScoreDetail.items (d : ScoreDetail) : List (String × ℚ) :=
  [("rest", d.rest), ("fairness", d.fairness), ("role", d.role), ("skill", d.skill),
   ("fixed", d.fixed), ("preference", d.preference), ("applicant", d.applicant),
   ("salary", d.salary)]

/-- `sum(score_detail.values())`. -/
def ScoreDetail.total (d : ScoreDetail) : ℚ :=
  d.rest + d.fairness + d.role + d.skill + d.fixed + d.preference + d.applicant + d.salary

/-- The `CandidateEvaluation` dataclass. -/
structure CandidateEvaluation where
  ordio_employee_id : String
  employee_name : String
  score : ℚ
  blocked : Bool
  is_applicant : Bool
  reasons : List String
  blocked_reasons : List String
  score_detail : ScoreDetail
  hours_existing_month : ℚ
  hours_run_month : ℚ
  target_hours : Option ℚ
  week_shifts : ℕ
  projected_salary : Option ℚ
  soft_violations : Option (List String)
deriving DecidableEq

/-- `_score_candidate`: evaluate one (employee, slot) pair.  A direct
transcription of the source; the raw `blocked_reasons` list is accumulated in
program order, deduplicated and sorted only in the returned record. -/
def score_candidate (employee : Employee) (slot : OpenSlot) (rule : EmployeeRule)
    (prefs : Prefs) (is_applicant : Bool) (existing_shifts run_shifts : List Shift)
    (absences : List Absence) (fixed_patterns : List ((String × ℕ × String × String) × ℕ))
    (policy : Policy) (run_extra_month_hours : ℚ) (constraint_mode : String) :
    CandidateEvaluation :=
  let emp_id := employee.ordio_employee_id
  let emp_name := if employee.full_name ≠ "" then employee.full_name else emp_id
  let slot_hours := slotHours slot
  let slot_month := month_key slot.date
  let slot_week := week_key slot.date
  let br1 : List String := if rule.no_additional_shifts then ["no_additional_shifts"] else []
  let br2 := br1 ++ (if has_absence absences slot.date then ["absence"] else [])
  let br3 := br2 ++
    (if (existing_shifts ++ run_shifts).any (fun s => s.date = slot.date) then
      ["already_has_shift_same_day"] else [])
  let weekly_cap := effective_weekly_cap employee rule
  let max_consecutive_days : ℤ :=
    match policy.max_consecutive_days with
    | some v => if v = 0 then 5 else v
    | none => 5
  let arbzg := arbzg_violations existing_shifts run_shifts slot weekly_cap max_consecutive_days
  let br4 := br3 ++ arbzg
  let month_cap := effective_monthly_cap employee rule
  let existing_month_hours := hours_in_month existing_shifts slot_month
  let run_month_hours := hours_in_month run_shifts slot_month
  let projected_month_hours := existing_month_hours + run_month_hours + slot_hours
  let monthlyHit : Bool :=
    match month_cap with
    | some cap => decide (projected_month_hours > cap)
    | none => false
  let sv1 : List String :=
    if monthlyHit ∧ constraint_mode = "loose" then ["monthly_hours_limit"] else []
  let br5 := br4 ++ (if monthlyHit ∧ constraint_mode ≠ "loose" then ["monthly_hours_limit"] else [])
  let extraHit : Bool :=
    match rule.max_additional_monthly_hours with
    | some extra_cap => decide (run_extra_month_hours + slot_hours > extra_cap)
    | none => false
  let sv2 := sv1 ++ (if extraHit ∧ constraint_mode = "loose" then ["max_additional_monthly_hours"] else [])
  let br6 := br5 ++ (if extraHit ∧ constraint_mode ≠ "loose" then ["max_additional_monthly_hours"] else [])
  let weeklyRuleHit : Bool :=
    match rule.max_weekly_hours with
    | some wcap => decide (hours_in_week run_shifts slot_week + slot_hours > wcap)
    | none => false
  let sv3 := sv2 ++ (if weeklyRuleHit ∧ constraint_mode = "loose" then ["max_weekly_hours"] else [])
  let br7 := br6 ++ (if weeklyRuleHit ∧ constraint_mode ≠ "loose" then ["max_weekly_hours"] else [])
  let wage := employee.hourly_wage.getD 0
  let max_salary := employee.max_salary.getD 0
  let projected_salary : Option ℚ :=
    if wage > 0 ∧ max_salary > 0 then some (projected_month_hours * wage) else none
  let br8 := br7 ++
    (if wage > 0 ∧ max_salary > 0 ∧ projected_month_hours * wage > max_salary then
      ["max_salary_limit"] else [])
  let pv := preference_score_and_violations prefs slot
  let pref_score0 := pv.1
  let pref_viol := pv.2
  let sv4 := sv3 ++ (if pref_viol ≠ [] ∧ constraint_mode = "loose" then pref_viol else [])
  let br9 := br8 ++ (if pref_viol ≠ [] ∧ constraint_mode ≠ "loose" then pref_viol else [])
  let blocked := !br9.isEmpty
  let target_hours := target_hours_for_scoring employee rule
  let remaining_hours :=
    match target_hours with
    | some t => if t ≠ 0 then max (t - (existing_month_hours + run_month_hours)) 0 else 0
    | none => 0
  let rest_score :=
    match target_hours with
    | some t => if t ≠ 0 ∧ t > 0 then min (remaining_hours / t * SCORING_rest_max) SCORING_rest_max
                else SCORING_rest_max * (1 / 2)
    | none => SCORING_rest_max * (1 / 2)
  let week_shift_count := count_shifts_in_week (existing_shifts ++ run_shifts) slot_week
  let fairness_score := max (SCORING_fairness_max - 6 * (week_shift_count : ℚ)) 0
  let role_scr := role_score employee slot
  let skill_scr := skill_score employee slot rule
  let fixed_bonus := fixed_shift_bonus fixed_patterns emp_id slot
  let applicant_bonus := if is_applicant then SCORING_applicant_bonus else 0
  let salary_penalty :=
    match projected_salary with
    | some ps => if max_salary > 0 ∧ ps > (9 / 10) * max_salary then SCORING_salary_warning_penalty else 0
    | none => 0
  let preferred_types := rule.preferred_shift_types.map canonical_name
  let pref_score :=
    if preferred_types ≠ [] ∧ canonical_name slot.shift_type ∈ preferred_types then
      pref_score0 + SCORING_pref_bonus * (1 / 2)
    else pref_score0
  let score_detail : ScoreDetail :=
    { rest := round2 rest_score, fairness := round2 fairness_score, role := round2 role_scr,
      skill := round2 skill_scr, fixed := round2 fixed_bonus, preference := round2 pref_score,
      applicant := round2 applicant_bonus, salary := round2 salary_penalty }
  let score := if !blocked then score_detail.total else 0
  let components := sortByB (fun a b => |b.2| ≤ |a.2|) score_detail.items
  let reasons := buildReasons components []
  { ordio_employee_id := emp_id
    employee_name := emp_name
    score := round2 score
    blocked := blocked
    is_applicant := is_applicant
    reasons := reasons
    blocked_reasons := sortedSet br9
    score_detail := score_detail
    hours_existing_month := round2 existing_month_hours
    hours_run_month := round2 run_month_hours
    target_hours := target_hours.map round2
    week_shifts := week_shift_count
    projected_salary := projected_salary.map round2
    soft_violations := if sv4 ≠ [] then some sv4 else none }

/-! ## Allocation engine (`generate_plan`) -/

/-- `_normalize_rule_lookup`: profile rules re-keyed by canonical name. -/
def normalize_rule_lookup (profile : Profile) : List (String × EmployeeRule) :=
  profile.employee_rules.foldl (fun out kv => alSet out (canonical_name kv.1) kv.2) []

/-- `_employee_rule`: look up an employee's rule by canonical full name, first
name, then username; absent → default rule. -/
def employee_rule (emp : Employee) (lookup : List (String × EmployeeRule)) : EmployeeRule :=
  let first := canonical_name emp.first_name
  let full := canonical_name emp.full_name
  let user := canonical_name emp.username
  if full ≠ "" ∧ alHas lookup full then alGet lookup full {}
  else if first ≠ "" ∧ alHas lookup first then alGet lookup first {}
  else if user ≠ "" ∧ alHas lookup user then alGet lookup user {}
  else {}

/-- `_slot_sort_key` as a boolean `≤` on slots: `(-has_applicants, date,
start, slot_id)` ascending. -/
def slotLE (a b : OpenSlot) : Bool :=
  let ka : ℕ := if a.applicant_employee_ids ≠ [] then 0 else 1
  let kb : ℕ := if b.applicant_employee_ids ≠ [] then 0 else 1
  if ka ≠ kb then ka < kb
  else match strCmp a.date b.date with
  | .lt => true
  | .gt => false
  | .eq =>
    match strCmp a.start b.start with
    | .lt => true
    | .gt => false
    | .eq => pyStrLE a.slot_id b.slot_id

/-- The deterministic evaluation ordering of `generate_plan`:
`(blocked, -score, canonical name, employee id)` ascending, as a boolean `≤`
for the stable sort. -/
def evalLE (x y : CandidateEvaluation) : Bool :=
  let bx : ℕ := if x.blocked then 1 else 0
  let bY : ℕ := if y.blocked then 1 else 0
  if bx ≠ bY then bx < bY
  else if x.score ≠ y.score then y.score < x.score
  else match strCmp (canonical_name x.employee_name) (canonical_name y.employee_name) with
  | .lt => true
  | .gt => false
  | .eq => pyStrLE x.ordio_employee_id y.ordio_employee_id

/-- A near-miss alternative attached to an assignment (named `AltCandidate`
here because `Alternative` is a Lean type class). -/
structure AltCandidate where
  ordio_employee_id : String
  employee_name : String
  score : ℚ
  blocked : Bool
  is_applicant : Bool
  reasons : List String
  blocked_reasons : List String
  score_detail : ScoreDetail
deriving DecidableEq

/-- A top-rejected candidate attached to an unassigned record. -/
structure TopCandidate where
  ordio_employee_id : String
  employee_name : String
  blocked_reasons : List String
  score : ℚ
  is_applicant : Bool
deriving DecidableEq

/-- One row of the audit evaluation matrix. -/
structure EvalRow where
  employee_id : String
  employee_name : String
  score : ℚ
  blocked : Bool
  is_applicant : Bool
  blocked_reasons : List String
  score_detail : ScoreDetail
  target_hours : Option ℚ
  month_hours_before : ℚ
  soft_violations : Option (List String)
deriving DecidableEq

/-- An assignment record of the final plan. -/
structure Assignment where
  assignment_id : String
  slot_id : String
  ordio_shift_id : String
  date : String
  start : String
  end_ : String
  hours : ℚ
  shift_type : String
  working_area : String
  note : String
  ordio_employee_id : String
  employee_name : String
  score : ℚ
  is_applicant : Bool
  assignment_kind : String
  reasons : List String
  blocked_reasons : List String
  score_detail : ScoreDetail
  week_shifts : ℕ
  existing_month_hours : ℚ
  run_month_hours_before : ℚ
  target_hours : Option ℚ
  projected_salary : Option ℚ
  alternatives : List AltCandidate
  soft_violations : Option (List String)
deriving DecidableEq

/-- An unassigned-slot record of the final plan. -/
structure Unassigned where
  slot_id : String
  ordio_shift_id : String
  date : String
  start : String
  end_ : String
  shift_type : String
  working_area : String
  reason : String
  top_candidates : List TopCandidate
deriving DecidableEq

/-- The engine's mutable run state (`PlanState` dataclass). -/
structure PlanState where
  assignments : List Assignment
  unassigned : List Unassigned
  run_assignments_by_emp : List (String × List Shift)
  run_hours_by_emp_month : List ((String × String) × ℚ)
  run_hours_by_emp_week : List ((String × String) × ℚ)
  run_shift_count_by_emp_week : List ((String × String) × ℕ)
  run_days_by_emp : List (String × List String)
  run_total_hours_by_emp : List (String × ℚ)

/-- `_initial_state`. -/
def initial_state : PlanState :=
  { assignments := [], unassigned := [], run_assignments_by_emp := [],
    run_hours_by_emp_month := [], run_hours_by_emp_week := [],
    run_shift_count_by_emp_week := [], run_days_by_emp := [],
    run_total_hours_by_emp := [] }

/-- One fairness-overview row. -/
structure FairnessRow where
  employee_name : String
  assigned_hours : ℚ
  assigned_slots : ℕ
  target_hours : Option ℚ
  delta_to_target : Option ℚ
deriving DecidableEq

/-- `fairness_overview`: per-employee totals, sorted by descending assigned
hours (stable). -/
def fairness_overview (assignments : List Assignment) : List FairnessRow :=
  let per : List (String × (ℚ × ℕ × ℚ)) :=
    assignments.foldl
      (fun per row =>
        let name := if row.employee_name ≠ "" then row.employee_name else row.ordio_employee_id
        alUpdate per name (0, 0, 0) fun item =>
          (item.1 + row.hours, item.2.1 + 1,
           match row.target_hours with
           | some t => t
           | none => item.2.2))
      []
  let result := per.map fun kv =>
    let target := kv.2.2.2
    { employee_name := kv.1
      assigned_hours := round2 kv.2.1
      assigned_slots := kv.2.2.1
      target_hours := if target ≠ 0 then some (round2 target) else none
      delta_to_target := if target ≠ 0 then some (round2 (kv.2.1 - target)) else none }
  sortByB (fun a b => b.assigned_hours ≤ a.assigned_hours) result

/-- Plan-level aggregate metrics. -/
structure Metrics where
  assigned_slots : ℕ
  unassigned_slots : ℕ
  total_slots : ℕ
  fill_rate : ℚ
  assignment_kind_counts : List (String × ℕ)
deriving DecidableEq

/-- One entry of the loose-mode `soft_violations` audit list. -/
structure SoftViolationEntry where
  slot_id : String
  employee_id : String
  violation : String
deriving DecidableEq

/-- The final plan artifact (the dict returned by `generate_plan`; the
constant explanation block is omitted as it carries no data). -/
structure Plan where
  plan_id : String
  generated_at : String
  snapshot_id : String
  betrieb : String
  range_from : String
  range_to : String
  profile : String
  profile_description : String
  assignments : List Assignment
  unassigned : List Unassigned
  metrics : Metrics
  fairness : List FairnessRow
  explanation_policy : Policy
  evaluation_matrix : List (String × List EvalRow)
  soft_violations : Option (List SoftViolationEntry)
deriving DecidableEq

/-- The per-slot evaluation context fixed over a run. -/
structure AllocCtx where
  employee_by_id : List (String × Employee)
  rules_lookup : List (String × EmployeeRule)
  abs_by_emp : List (String × List Absence)
  existing_by_emp : List (String × List Shift)
  fixed_patterns : List ((String × ℕ × String × String) × ℕ)
  policy : Policy
  constraint_mode : String

/-- Serialise one evaluation for the audit matrix. -/
def toEvalRow (e : CandidateEvaluation) : EvalRow :=
  { employee_id := e.ordio_employee_id, employee_name := e.employee_name, score := e.score,
    blocked := e.blocked, is_applicant := e.is_applicant, blocked_reasons := e.blocked_reasons,
    score_detail := e.score_detail, target_hours := e.target_hours,
    month_hours_before := e.hours_run_month, soft_violations := e.soft_violations }

/-- Serialise one evaluation as a top-rejected candidate. -/
def toTopCandidate (e : CandidateEvaluation) : TopCandidate :=
  { ordio_employee_id := e.ordio_employee_id, employee_name := e.employee_name,
    blocked_reasons := e.blocked_reasons, score := e.score, is_applicant := e.is_applicant }

/-- Serialise one evaluation as an alternative. -/
def toAlternative (e : CandidateEvaluation) : AltCandidate :=
  { ordio_employee_id := e.ordio_employee_id, employee_name := e.employee_name, score := e.score,
    blocked := e.blocked, is_applicant := e.is_applicant, reasons := e.reasons,
    blocked_reasons := e.blocked_reasons, score_detail := e.score_detail }

/-- All candidate evaluations for one slot under the current run state, in
employee-dict order. -/
def slotEvals (ctx : AllocCtx) (st : PlanState) (slot : OpenSlot) : List CandidateEvaluation :=
  let applicants := slot.applicant_employee_ids
  ctx.employee_by_id.map fun kv =>
    let emp_id := kv.1
    let emp := kv.2
    let rule := employee_rule emp ctx.rules_lookup
    let prefs := parse_simple_shift_preferences rule.notes
    let run_shifts := alGet st.run_assignments_by_emp emp_id []
    score_candidate emp slot rule prefs (emp_id ∈ applicants)
      (alGet ctx.existing_by_emp emp_id []) run_shifts
      (alGet ctx.abs_by_emp emp_id []) ctx.fixed_patterns ctx.policy
      (alGet st.run_hours_by_emp_month (emp_id, month_key slot.date) 0)
      ctx.constraint_mode

/-- The body of the per-slot loop of `generate_plan`: evaluate, rank, pick a
winner or record the slot unassigned, update run state and the audit matrix. -/
def allocStep (ctx : AllocCtx) (acc : PlanState × List (String × List EvalRow))
    (slot : OpenSlot) : PlanState × List (String × List EvalRow) :=
  let st := acc.1
  let applicants := slot.applicant_employee_ids
  let evals := sortByB evalLE (slotEvals ctx st slot)
  let matrix := alSet acc.2 slot.slot_id (evals.map toEvalRow)
  let valid := evals.filter (fun e => !e.blocked)
  let has_applicants := applicants ≠ []
  let selected_pool :=
    if has_applicants ∧ ctx.policy.prefer_applicants.getD true then
      let applicant_pool := valid.filter (fun e => e.is_applicant)
      if applicant_pool ≠ [] then applicant_pool else valid
    else valid
  match selected_pool with
  | [] =>
    let reason :=
      if evals = [] then "no_candidates_available"
      else if evals.all (fun e => e.blocked) then "all_candidates_blocked_by_constraints"
      else if has_applicants then "all_applicants_blocked"
      else "no_valid_candidate"
    let rec_ : Unassigned :=
      { slot_id := slot.slot_id, ordio_shift_id := slot.ordio_shift_id, date := slot.date,
        start := slot.start, end_ := slot.end_, shift_type := slot.shift_type,
        working_area := slot.working_area, reason := reason,
        top_candidates := (evals.take 5).map toTopCandidate }
    ({ st with unassigned := st.unassigned ++ [rec_] }, matrix)
  | best :: _ =>
    let emp_id := best.ordio_employee_id
    let slot_hours := slot.hours.getD 0
    let m_key := month_key slot.date
    let w_key := week_key slot.date
    let newShift : Shift := { date := slot.date, start := slot.start, end_ := slot.end_, hours := slot_hours }
    let alternatives :=
      ((evals.take 8).filter (fun e => e.ordio_employee_id ≠ best.ordio_employee_id)).map toAlternative
    let assignment_kind :=
      if best.is_applicant then "applicant"
      else if ¬has_applicants then "recommendation_without_applicant"
      else "recommendation_despite_applicants"
    let a : Assignment :=
      { assignment_id := slot.slot_id ++ "::" ++ emp_id, slot_id := slot.slot_id,
        ordio_shift_id := slot.ordio_shift_id, date := slot.date, start := slot.start,
        end_ := slot.end_, hours := round2 slot_hours, shift_type := slot.shift_type,
        working_area := slot.working_area, note := slot.note, ordio_employee_id := emp_id,
        employee_name := best.employee_name, score := best.score,
        is_applicant := best.is_applicant, assignment_kind := assignment_kind,
        reasons := best.reasons, blocked_reasons := best.blocked_reasons,
        score_detail := best.score_detail, week_shifts := best.week_shifts,
        existing_month_hours := best.hours_existing_month,
        run_month_hours_before := best.hours_run_month, target_hours := best.target_hours,
        projected_salary := best.projected_salary, alternatives := alternatives,
        soft_violations := best.soft_violations }
    ({ st with
        assignments := st.assignments ++ [a]
        run_assignments_by_emp := alUpdate st.run_assignments_by_emp emp_id [] (· ++ [newShift])
        run_hours_by_emp_month := alUpdate st.run_hours_by_emp_month (emp_id, m_key) 0 (· + slot_hours)
        run_hours_by_emp_week := alUpdate st.run_hours_by_emp_week (emp_id, w_key) 0 (· + slot_hours)
        run_shift_count_by_emp_week := alUpdate st.run_shift_count_by_emp_week (emp_id, w_key) 0 (· + 1)
        run_days_by_emp := alUpdate st.run_days_by_emp emp_id [] (fun ds => if slot.date ∈ ds then ds else ds ++ [slot.date])
        run_total_hours_by_emp := alUpdate st.run_total_hours_by_emp emp_id 0 (· + slot_hours) },
     matrix)

/-- `generate_plan`.  The only nondeterministic inputs of the source —
`uuid4()` for the plan id and the wall clock for `generated_at` — are passed
in as the explicit parameters `uuid_hex` and `now_iso`. -/
def generate_plan (snapshot : Snapshot) (range_from range_to : String)
    (profile_name : String) (profile : Profile) (constraint_mode : String)
    (uuid_hex : String) (now_iso : String) : Plan :=
  let employee_by_id :=
    (snapshot.employees.filter (fun e => e.ordio_employee_id ≠ "")).foldl
      (fun d e => alSet d e.ordio_employee_id e) []
  let rules_lookup := normalize_rule_lookup profile
  let policy := profile.policy
  let open_slots :=
    (snapshot.open_shifts.filter (fun s => pyStrLE range_from s.date ∧ pyStrLE s.date range_to)).map
      fun s => { s with hours := some (slotHours s) }
  let open_slots := sortByB slotLE open_slots
  let fixed_patterns := derive_fixed_patterns snapshot.assigned_shifts
  let abs_by_emp :=
    snapshot.absences.foldl
      (fun d a => if a.ordio_employee_id ≠ "" then alUpdate d a.ordio_employee_id [] (· ++ [a]) else d)
      []
  let existing_by_emp := employee_by_id.map fun kv => (kv.1, collect_existing_shifts snapshot kv.1)
  let ctx : AllocCtx :=
    { employee_by_id := employee_by_id, rules_lookup := rules_lookup, abs_by_emp := abs_by_emp,
      existing_by_emp := existing_by_emp, fixed_patterns := fixed_patterns, policy := policy,
      constraint_mode := constraint_mode }
  let result := open_slots.foldl (allocStep ctx) (initial_state, [])
  let state := result.1
  let total_slots := state.assignments.length + state.unassigned.length
  let fill_rate :=
    if total_slots ≠ 0 then round1 (((state.assignments.length : ℚ) / (total_slots : ℚ)) * 100)
    else 0
  let fairness := fairness_overview state.assignments
  let kind_counts :=
    state.assignments.foldl (fun c a => alUpdate c a.assignment_kind 0 (· + 1)) []
  let soft :=
    if constraint_mode = "loose" then
      some (state.assignments.foldr
        (fun a acc =>
          ((a.soft_violations.getD []).map fun sv =>
            ({ slot_id := a.slot_id, employee_id := a.ordio_employee_id, violation := sv } :
              SoftViolationEntry)) ++ acc)
        [])
    else none
  { plan_id := "plan-" ++ String.mk (uuid_hex.data.take 12)
    generated_at := now_iso
    snapshot_id := snapshot.snapshot_id
    betrieb := snapshot.betrieb
    range_from := range_from
    range_to := range_to
    profile := profile_name
    profile_description := profile.description
    assignments := state.assignments
    unassigned := state.unassigned
    metrics :=
      { assigned_slots := state.assignments.length, unassigned_slots := state.unassigned.length,
        total_slots := total_slots, fill_rate := fill_rate,
        assignment_kind_counts := kind_counts }
    fairness := fairness
    explanation_policy := policy
    evaluation_matrix := result.2
    soft_violations := soft }

/-! ## Gini coefficient (`javeed_ordio/compare.py`, identically
`javeed_ordio/eval_lite.py`; `allocation_core/io/writer.py` additionally
rounds the result to 4 decimals) -/

/-- Python `round(x, 4)` (the `writer.py` variant of `_gini`). -/
def round4 (x : ℚ) : ℚ :=
  (round (x * 10000) : ℚ) / 10000

/-- `_gini`: Gini coefficient of a value list. -/
def gini (values : List ℚ) : ℚ :=
  if values = [] ∨ values.all (fun v => v = 0) then 0
  else
    let sorted_vals := sortByB (fun a b => decide (a ≤ b)) values
    let n := sorted_vals.length
    let cumulative := ∑ i ∈ Finset.range n, ((i : ℚ) + 1) * sorted_vals.getD i 0
    let total := sorted_vals.sum
    if total = 0 then 0
    else (2 * cumulative) / ((n : ℚ) * total) - ((n : ℚ) + 1) / (n : ℚ)

/-- `writer.py`'s `_gini`: identical computation, rounded to 4 decimals. -/
def gini_writer (values : List ℚ) : ℚ :=
  round4 (gini values)

/-! ## Theorems: claim C8 (Gini bounds) -/

theorem sorted_insertSortedB_rat (a : ℚ) (l : List ℚ)
    (h : l.Sorted (· ≤ ·)) :
    (insertSortedB (fun a b => decide (a ≤ b)) a l).Sorted (· ≤ ·) := by
  induction l with
  | nil => simp [insertSortedB]
  | cons b bs ih =>
    unfold insertSortedB
    by_cases hab : a ≤ b
    · rw [if_pos (by simpa using hab)]
      refine List.sorted_cons.mpr ⟨?_, h⟩
      intro y hy
      rcases List.mem_cons.mp hy with rfl | hy
      · exact hab
      · exact le_trans hab (List.rel_of_sorted_cons h y hy)
    · rw [if_neg (by simpa using hab)]
      have hba : b ≤ a := le_of_not_le hab
      rcases List.sorted_cons.mp h with ⟨hb, hbs⟩
      refine List.sorted_cons.mpr ⟨?_, ih hbs⟩
      intro y hy
      have hmem := (perm_insertSortedB (fun a b => decide (a ≤ b)) a bs).mem_iff.mp hy
      rcases List.mem_cons.mp hmem with rfl | hyb
      · exact hba
      · exact hb y hyb

theorem sorted_sortByB_rat (l : List ℚ) :
    (sortByB (fun a b => decide (a ≤ b)) l).Sorted (· ≤ ·) := by
  induction l with
  | nil => simp [sortByB]
  | cons a as ih => exact sorted_insertSortedB_rat a _ ih

theorem sum_range_getD (l : List ℚ) :
    (∑ i ∈ Finset.range l.length, l.getD i 0) = l.sum := by
  induction l with
  | nil => simp
  | cons a as ih =>
    rw [List.length_cons, Finset.sum_range_succ', List.sum_cons]
    simp only [List.getD_cons_succ, List.getD_cons_zero]
    rw [ih]
    ring

theorem sum_range_add_one (n : ℕ) :
    (∑ i ∈ Finset.range n, ((i : ℚ) + 1)) = n * (n + 1) / 2 := by
  induction n with
  | zero => simp
  | succ m ih =>
    rw [Finset.sum_range_succ, ih]
    push_cast
    ring

/-- C8: for every list of non-negative values the Gini coefficient lies in
`[0, 1]` (both the plain `compare.py`/`eval_lite.py` variant and the
4-decimal-rounded `writer.py` variant), and it is exactly `0` on the empty
list and on the all-zero list `[0, 0, 0]`. -/
theorem C8_gini_bounds (values : List ℚ) (hnn : ∀ v ∈ values, 0 ≤ v) :
    (0 ≤ gini values ∧ gini values ≤ 1) ∧
    (0 ≤ gini_writer values ∧ gini_writer values ≤ 1) ∧
    gini ([] : List ℚ) = 0 ∧ gini ([0, 0, 0] : List ℚ) = 0 := by
  have hmain : 0 ≤ gini values ∧ gini values ≤ 1 := by
    unfold gini
    by_cases h0 : values = [] ∨ values.all (fun v => v = 0)
    · rw [if_pos h0]
      norm_num
    · rw [if_neg h0]
      set s := sortByB (fun a b => decide (a ≤ b)) values with hs
      have hperm : List.Perm s values := perm_sortByB _ values
      have hlen : s.length = values.length := hperm.length_eq
      have hnns : ∀ v ∈ s, 0 ≤ v := fun v hv => hnn v (hperm.mem_iff.mp hv)
      have hsorted : s.Sorted (· ≤ ·) := sorted_sortByB_rat values
      by_cases ht : s.sum = 0
      · simp only [ht, if_pos]
        norm_num
      · rw [if_neg ht]
        have hne : values ≠ [] := fun hc => h0 (Or.inl hc)
        have hn1 : 1 ≤ s.length := by
          rw [hlen]
          exact List.length_pos.mpr hne
        have hN1 : (1 : ℚ) ≤ (s.length : ℚ) := by exact_mod_cast hn1
        have hN0 : (0 : ℚ) < (s.length : ℚ) := lt_of_lt_of_le one_pos hN1
        have hT : 0 < s.sum := lt_of_le_of_ne (List.sum_nonneg hnns) (Ne.symm ht)
        have hgd : ∀ i, 0 ≤ s.getD i 0 := by
          intro i
          by_cases hi : i < s.length
          · rw [List.getD_eq_getElem s 0 hi]
            exact hnns _ (List.getElem_mem hi)
          · rw [List.getD_eq_default s 0 (le_of_not_lt hi)]
        -- upper bound on the weighted sum
        have hup : (∑ i ∈ Finset.range s.length, ((i : ℚ) + 1) * s.getD i 0) ≤
            (s.length : ℚ) * s.sum := by
          calc (∑ i ∈ Finset.range s.length, ((i : ℚ) + 1) * s.getD i 0)
              ≤ ∑ i ∈ Finset.range s.length, (s.length : ℚ) * s.getD i 0 := by
                refine Finset.sum_le_sum fun i hi => ?_
                have hin : i < s.length := Finset.mem_range.mp hi
                have : (i : ℚ) + 1 ≤ (s.length : ℚ) := by exact_mod_cast hin
                exact mul_le_mul_of_nonneg_right this (hgd i)
            _ = (s.length : ℚ) * s.sum := by
                rw [← Finset.mul_sum, sum_range_getD]
        -- lower bound via Chebyshev's sum inequality
        have hmono : MonovaryOn (fun i : ℕ => (i : ℚ) + 1) (fun i : ℕ => s.getD i 0)
            ↑(Finset.range s.length) := by
          intro i hi j hj hlt
          simp only [Finset.coe_range, Set.mem_Iio] at hi hj
          have hij : i ≤ j := by
            by_contra hc
            push_neg at hc
            have : s.getD j 0 ≤ s.getD i 0 := by
              rw [List.getD_eq_getElem s 0 hi, List.getD_eq_getElem s 0 hj]
              exact List.Sorted.rel_get_of_le hsorted (le_of_lt hc)
            exact absurd hlt (not_lt.mpr this)
          show (i : ℚ) + 1 ≤ (j : ℚ) + 1
          have : (i : ℚ) ≤ (j : ℚ) := by exact_mod_cast hij
          linarith
        have hcheb := hmono.sum_mul_sum_le_card_mul_sum
        rw [sum_range_add_one, sum_range_getD, Finset.card_range] at hcheb
        have hlow : ((s.length : ℚ) + 1) * s.sum ≤
            2 * (∑ i ∈ Finset.range s.length, ((i : ℚ) + 1) * s.getD i 0) := by
          nlinarith [hcheb, hN0]
        constructor
        · rw [sub_nonneg, div_le_div_iff hN0 (mul_pos hN0 hT)]
          nlinarith [hlow, hN0, hT]
        · rw [sub_le_iff_le_add, div_le_iff (mul_pos hN0 hT)]
          have key : (1 + ((s.length : ℚ) + 1) / (s.length : ℚ)) * ((s.length : ℚ) * s.sum)
              = (s.length : ℚ) * s.sum + ((s.length : ℚ) + 1) * s.sum := by
            field_simp
            ring
          rw [key]
          nlinarith [hup, hT, hN1]
  refine ⟨hmain, ⟨?_, ?_⟩, by norm_num [gini], by norm_num [gini]⟩
  · unfold gini_writer round4
    have : (0 : ℤ) ≤ round (gini values * 10000) := by
      rw [round_eq]
      have h1 : (0 : ℚ) ≤ gini values * 10000 + 1 / 2 := by nlinarith [hmain.1]
      have := Int.floor_le_floor (α := ℚ) (show (0 : ℚ) ≤ gini values * 10000 + 1 / 2 from h1)
      simpa using this
    positivity
  · unfold gini_writer round4
    rw [div_le_one (by norm_num)]
    have h2 : round (gini values * 10000) ≤ (10000 : ℤ) := by
      have := round_le_add_half (gini values * 10000)
      have hub : gini values * 10000 + 1 / 2 ≤ 10000 + 1 / 2 := by nlinarith [hmain.2]
      have hcast : ((round (gini values * 10000) : ℤ) : ℚ) ≤ 10000 + 1 / 2 := le_trans this hub
      by_contra hc
      push_neg at hc
      have : (10001 : ℚ) ≤ ((round (gini values * 10000) : ℤ) : ℚ) := by exact_mod_cast hc
      linarith
    exact_mod_cast h2

/-! ## Reflection of the substring tests -/

theorem isPrefixOfCL_iff (n h : List Char) : isPrefixOfCL n h = true ↔ n <+: h := by
  induction n generalizing h with
  | nil => simp [isPrefixOfCL]
  | cons a as ih =>
    cases h with
    | nil => simp [isPrefixOfCL]
    | cons b bs =>
      simp [isPrefixOfCL, List.cons_prefix_iff, ih]

theorem isInfixOfCL_iff (n h : List Char) : isInfixOfCL n h = true ↔ n <:+: h := by
  induction h with
  | nil => simp [isInfixOfCL]
  | cons c cs ih =>
    rw [isInfixOfCL, List.infix_cons_iff, Bool.or_eq_true, isPrefixOfCL_iff, ih]

theorem pyIn_werki_imp_werk (s : String) :
    pyIn "werki" s = true → pyIn "werk" s = true := by
  intro h
  rw [pyIn, isInfixOfCL_iff] at h ⊢
  exact List.IsInfix.trans (List.IsPrefix.isInfix (by decide)) h

/-! ## Theorems: claim C5 (effective monthly cap) -/

/-- The effective-monthly-cap rule exactly as the specification words it
(claim C5): no cap under `disable_max_hours`; else the explicit rule value;
else `target_weekly_hours · 4.33`; else by employment type — "mini" caps at
43 h lowered to `max_salary / wage` when both are positive, "werk" caps at
`20 · 4.33`, otherwise `max_salary / wage` when both are positive, else
160 h. -/
def effective_monthly_cap_spec (emp : Employee) (rule : EmployeeRule) : Option ℚ :=
  if rule.disable_max_hours then none
  else match rule.max_monthly_hours with
  | some m => some m
  | none =>
    match rule.target_weekly_hours with
    | some t => some (t * (433 / 100))
    | none =>
      let employment := canonical_name emp.employment
      let wage := emp.hourly_wage.getD 0
      let max_salary := emp.max_salary.getD 0
      if pyIn "mini" employment then
        some (if wage > 0 ∧ max_salary > 0 then min 43 (max_salary / wage) else 43)
      else if pyIn "werk" employment then some (20 * (433 / 100))
      else if wage > 0 ∧ max_salary > 0 then some (max_salary / wage)
      else some 160

/-- C5: the code's `_effective_monthly_cap` computes exactly the cap the
specification describes (the code's extra `"werki"` substring test is
subsumed by the `"werk"` test, since `"werk"` is a prefix of `"werki"`). -/
theorem C5_effective_monthly_cap (emp : Employee) (rule : EmployeeRule) :
    effective_monthly_cap emp rule = effective_monthly_cap_spec emp rule := by
  unfold effective_monthly_cap effective_monthly_cap_spec
  by_cases hd : rule.disable_max_hours
  · simp [hd]
  · simp only [hd, if_false, Bool.false_eq_true]
    cases rule.max_monthly_hours with
    | some m => rfl
    | none =>
      cases rule.target_weekly_hours with
      | some t => rfl
      | none =>
        by_cases hmini : pyIn "mini" (canonical_name emp.employment) = true
        · simp [hmini]
        · by_cases hwerk : pyIn "werk" (canonical_name emp.employment) = true
          · simp [hmini, hwerk]
          · have hwerki : pyIn "werki" (canonical_name emp.employment) = false := by
              by_contra hc
              exact hwerk (pyIn_werki_imp_werk _ (Bool.of_not_eq_false hc))
            simp [hmini, hwerk, hwerki]

/-! ## Theorems: claim C7 (shift labels) -/

/-- C7: the shift-label function labels a shift "frueh" (early) exactly when
the lower-cased type contains the substring `frueh` or the parsed start time
is before 11:00, and "spaet" (late) exactly when the lower-cased type contains
`spaet` or the start is at/after 16:00 or the end is at/after 21:00 ("label
from explicit type substring match, else derived from times", read per label);
no other label occurs, and several labels may co-occur. -/
theorem C7_shift_labels (shift_type start end_ : String) :
    ("frueh" ∈ shift_labels shift_type start end_ ↔
      (pyIn "frueh" (pyLower shift_type) = true ∨
       ∃ m, parse_hhmm_to_minutes start = some m ∧ m < 11 * 60)) ∧
    ("spaet" ∈ shift_labels shift_type start end_ ↔
      (pyIn "spaet" (pyLower shift_type) = true ∨
       (∃ m, parse_hhmm_to_minutes start = some m ∧ 16 * 60 ≤ m) ∨
       (∃ m, parse_hhmm_to_minutes end_ = some m ∧ 21 * 60 ≤ m))) ∧
    (∀ x ∈ shift_labels shift_type start end_, x = "frueh" ∨ x = "spaet") := by
  unfold shift_labels
  rcases hs : parse_hhmm_to_minutes start with _ | m <;>
    rcases he : parse_hhmm_to_minutes end_ with _ | k <;>
      dsimp only <;> split_ifs <;> simp_all [addLabel]

/-! ## Code-alphabet lemmas for the violation lists -/

theorem mem_foldr_append {α : Type} (g : α → List String) (P : String → Prop)
    (hg : ∀ s, ∀ c ∈ g s, P c) (xs : List α) :
    ∀ c ∈ xs.foldr (fun s acc => g s ++ acc) [], P c := by
  induction xs with
  | nil => simp
  | cons x xs ih =>
    intro c hc
    rcases List.mem_append.mp hc with h | h
    · exact hg x c h
    · exact ih c h

theorem mem_foldr_double {α : Type} (g₁ g₂ : α → List String) (P : String → Prop)
    (h₁ : ∀ s, ∀ c ∈ g₁ s, P c) (h₂ : ∀ s, ∀ c ∈ g₂ s, P c) (xs : List α) :
    ∀ c ∈ xs.foldr (fun s acc => g₁ s ++ g₂ s ++ acc) [], P c := by
  induction xs with
  | nil => simp
  | cons x xs ih =>
    intro c hc
    rcases List.mem_append.mp hc with h | h
    · rcases List.mem_append.mp h with h' | h'
      · exact h₁ x c h'
      · exact h₂ x c h'
    · exact ih c h

/-- Every reason produced by `_arbzg_violations` is one of its five fixed
codes. -/
theorem arbzg_codes (existing run : List Shift) (slot : OpenSlot)
    (weekly_limit : ℚ) (mcd : ℤ) :
    ∀ c ∈ arbzg_violations existing run slot weekly_limit mcd,
      c = "overlap_same_day" ∨ c = "daily_hours_gt_10" ∨ c = "weekly_hours_limit" ∨
      c = "rest_lt_11h" ∨ c = "consecutive_days_limit" := by
  intro c hc
  unfold arbzg_violations at hc
  rw [mem_sortedSet] at hc
  simp only [List.mem_append] at hc
  rcases hc with ((((h | h) | h) | h) | h)
  · have := mem_foldr_append
      (fun s : Shift => if time_overlap slot.start slot.end_ s.start s.end_ then ["overlap_same_day"] else [])
      (fun c => c = "overlap_same_day")
      (by intro s c hcs; dsimp only at hcs; split at hcs <;> simp_all) _ c h
    exact Or.inl this
  · right; left
    split at h <;> simp_all
  · right; right; left
    split at h <;> simp_all
  · right; right; right; left
    exact mem_foldr_double
      (fun s : Shift =>
        (if s.date = ordinalToIso (parseDateOrdinal slot.date - 1) ∧
            (24 * 60 - (((parse_hhmm_to_minutes s.end_).getD 0 : ℕ) : ℤ)) +
              (((parse_hhmm_to_minutes slot.start).getD 0 : ℕ) : ℤ) < 11 * 60
         then ["rest_lt_11h"] else []))
      (fun s : Shift =>
        (if s.date = ordinalToIso (parseDateOrdinal slot.date + 1) ∧
            (24 * 60 - (((parse_hhmm_to_minutes slot.end_).getD 0 : ℕ) : ℤ)) +
              (((parse_hhmm_to_minutes s.start).getD 0 : ℕ) : ℤ) < 11 * 60
         then ["rest_lt_11h"] else []))
      (fun c => c = "rest_lt_11h")
      (by intro s c hcs; dsimp only at hcs; split at hcs <;> simp_all)
      (by intro s c hcs; dsimp only at hcs; split at hcs <;> simp_all) _ c h
  · right; right; right; right
    split at h <;> simp_all

set_option maxHeartbeats 1600000 in
/-- Every preference-violation code is one of the six fixed codes. -/
theorem pref_violation_codes (prefs : Prefs) (slot : OpenSlot) :
    ∀ c ∈ (preference_score_and_violations prefs slot).2,
      c = "allowed_days" ∨ c = "blocked_days" ∨ c = "no_weekend" ∨ c = "only_weekend" ∨
      c = "starts_too_early" ∨ c = "ends_too_late" := by
  intro c hc
  unfold preference_score_and_violations evaluate_shift_preferences at hc
  by_cases hE : Prefs.isEmptyDict prefs = true
  · rw [if_pos hE] at hc
    simp at hc
  · rw [if_neg hE] at hc
    dsimp only at hc
    repeat' split at hc
    all_goals
      first
        | (simp at hc; revert hc; tauto)
        | simp at hc

/-- A conditional singleton of a different code never contains `x`. -/
theorem notMem_ite_singleton (c : Prop) [Decidable c] (s x : String) (hne : x ≠ s) :
    x ∉ (if c then [s] else []) := by
  split <;> simp [hne]

/-- Membership in `if c then l else []` implies membership in `l`. -/
theorem mem_of_mem_ite_nil (c : Prop) [Decidable c] (l : List String) (x : String)
    (h : x ∈ (if c then l else [])) : x ∈ l := by
  split at h
  · exact h
  · simp at h

/-- `(if c then some a else none) = some l` forces `l = a`. -/
theorem eq_of_ite_some_nil (c : Prop) [Decidable c] (a l : List String)
    (h : (if c then some a else none) = some l) : l = a := by
  split at h
  · exact (Option.some_inj.mp h).symm
  · exact Option.noConfusion h


/-! ## Theorems: claim C4 (salary guard is always a hard block) -/

/-- C4: whenever wage and salary cap are positive and the projected month cost
(existing + run + slot hours, times the wage) exceeds `max_salary`, the
evaluation carries the hard reason `max_salary_limit` (hence is blocked), in
every constraint mode, and `max_salary_limit` is never a soft violation. -/
theorem C4_salary_guard (employee : Employee) (slot : OpenSlot) (rule : EmployeeRule)
    (prefs : Prefs) (is_applicant : Bool) (existing_shifts run_shifts : List Shift)
    (absences : List Absence) (fixed_patterns : List ((String × ℕ × String × String) × ℕ))
    (policy : Policy) (run_extra_month_hours : ℚ) (constraint_mode : String)
    (hw : employee.hourly_wage.getD 0 > 0)
    (hms : employee.max_salary.getD 0 > 0)
    (hover : (hours_in_month existing_shifts (month_key slot.date) +
        hours_in_month run_shifts (month_key slot.date) + slotHours slot) *
        employee.hourly_wage.getD 0 > employee.max_salary.getD 0) :
    "max_salary_limit" ∈ (score_candidate employee slot rule prefs is_applicant existing_shifts
        run_shifts absences fixed_patterns policy run_extra_month_hours constraint_mode).blocked_reasons ∧
    (score_candidate employee slot rule prefs is_applicant existing_shifts
        run_shifts absences fixed_patterns policy run_extra_month_hours constraint_mode).blocked = true ∧
    ∀ l, (score_candidate employee slot rule prefs is_applicant existing_shifts
        run_shifts absences fixed_patterns policy run_extra_month_hours
        constraint_mode).soft_violations = some l → "max_salary_limit" ∉ l := by
  have hcond : employee.hourly_wage.getD 0 > 0 ∧ employee.max_salary.getD 0 > 0 ∧
      (hours_in_month existing_shifts (month_key slot.date) +
        hours_in_month run_shifts (month_key slot.date) + slotHours slot) *
        employee.hourly_wage.getD 0 > employee.max_salary.getD 0 := ⟨hw, hms, hover⟩
  unfold score_candidate
  dsimp only
  refine ⟨?_, ?_, ?_⟩
  · rw [mem_sortedSet]
    simp [List.mem_append, if_pos hcond]
  · simp [if_pos hcond, List.isEmpty_iff, List.append_eq_nil]
  · intro l hl hc
    have hl' := eq_of_ite_some_nil _ _ _ hl
    subst hl'
    simp only [List.mem_append] at hc
    rcases hc with (((h | h) | h) | h)
    · exact absurd h (notMem_ite_singleton _ "monthly_hours_limit" "max_salary_limit" (by decide))
    · exact absurd h
        (notMem_ite_singleton _ "max_additional_monthly_hours" "max_salary_limit" (by decide))
    · exact absurd h (notMem_ite_singleton _ "max_weekly_hours" "max_salary_limit" (by decide))
    · exact absurd (pref_violation_codes prefs slot _ (mem_of_mem_ite_nil _ _ _ h)) (by decide)

/-- Concrete employee used by the witnesses: a mini-jobber with wage 10 and a
50 € salary cap. -/
def fixtureEmp : Employee :=
  { ordio_employee_id := "e1", full_name := "Alice Smith", role := "Service",
    employment := "Minijob", hourly_wage := some 10, max_salary := some 50,
    skills := ["Theke"] }

/-- Concrete 8-hour slot used by the witnesses. -/
def fixtureSlot : OpenSlot :=
  { slot_id := "s1", date := "2026-10-12", start := "09:00", end_ := "17:00",
    shift_type := "Frueh", working_area := "Service" }


/-- Witness for C4: the fixture employee on the fixture slot exceeds the
salary cap and is blocked with `max_salary_limit` in loose mode. -/
theorem C4_salary_guard_witness :
    fixtureEmp.hourly_wage.getD 0 > 0 ∧ fixtureEmp.max_salary.getD 0 > 0 ∧
    (hours_in_month [] (month_key fixtureSlot.date) +
        hours_in_month [] (month_key fixtureSlot.date) + slotHours fixtureSlot) *
        fixtureEmp.hourly_wage.getD 0 > fixtureEmp.max_salary.getD 0 ∧
    ("max_salary_limit" ∈ (score_candidate fixtureEmp fixtureSlot {} {} false [] [] [] [] {} 0
        "loose").blocked_reasons ∧
      (score_candidate fixtureEmp fixtureSlot {} {} false [] [] [] [] {} 0 "loose").blocked = true ∧
      ∀ l, (score_candidate fixtureEmp fixtureSlot {} {} false [] [] [] [] {} 0
          "loose").soft_violations = some l → "max_salary_limit" ∉ l) :=
  ⟨by decide, by decide, by decide,
   C4_salary_guard fixtureEmp fixtureSlot {} {} false [] [] [] [] {} 0 "loose"
     (by decide) (by decide) (by decide)⟩

/-! ## Theorems: claim C10 (rule-based weekly cap) -/

/-- `x` is not in a conditional list whose condition fails. -/
theorem notMem_ite_nil_of_not (c : Prop) [Decidable c] (l : List String) (x : String)
    (hc : ¬c) : x ∉ (if c then l else []) := by
  rw [if_neg hc]
  simp

/-- `weekly_hours_limit` is produced by `_arbzg_violations` exactly when the
slot hours plus the ISO-week hours of existing + run shifts exceed the weekly
limit. -/
theorem weekly_mem_arbzg (existing run : List Shift) (slot : OpenSlot)
    (weekly_limit : ℚ) (mcd : ℤ) :
    "weekly_hours_limit" ∈ arbzg_violations existing run slot weekly_limit mcd ↔
      slotHours slot + hours_in_week (existing ++ run) (week_key slot.date) > weekly_limit := by
  unfold arbzg_violations
  dsimp only
  rw [mem_sortedSet]
  simp only [List.mem_append]
  constructor
  · rintro ((((h | h) | h) | h) | h)
    · exact absurd (mem_foldr_append _ (fun c => c = "overlap_same_day")
        (by intro s c hcs; have h' := mem_of_mem_ite_nil _ _ _ hcs; simpa using h') _ _ h)
        (by decide)
    · exact absurd h (notMem_ite_singleton _ "daily_hours_gt_10" "weekly_hours_limit" (by decide))
    · split at h
      next hc2 => exact hc2
      next => simp at h
    · exact absurd (mem_foldr_double _ _ (fun c => c = "rest_lt_11h")
        (by intro s c hcs; have h' := mem_of_mem_ite_nil _ _ _ hcs; simpa using h')
        (by intro s c hcs; have h' := mem_of_mem_ite_nil _ _ _ hcs; simpa using h') _ _ h)
        (by decide)
    · exact absurd h
        (notMem_ite_singleton _ "consecutive_days_limit" "weekly_hours_limit" (by decide))
  · intro hcond
    refine Or.inl (Or.inl (Or.inr ?_))
    rw [if_pos ?_]
    · simp
    · exact hcond

/-- Package a member of a non-empty soft-violation list under the
`if sv ≠ [] then some sv else none` wrapper. -/
theorem exists_some_mem_of_ite (sv : List String) (x : String) (hx : x ∈ sv) :
    ∃ l, (if sv ≠ [] then some sv else none) = some l ∧ x ∈ l := by
  rw [if_pos (List.ne_nil_of_mem hx)]
  exact ⟨sv, rfl, hx⟩

/-- Membership in `if c then l else []` forces the condition. -/
theorem mem_ite_cond_true (c : Prop) [Decidable c] (l : List String) (x : String)
    (h : x ∈ (if c then l else [])) : c := by
  by_contra hc
  rw [if_neg hc] at h
  simp at h

/-- C10: a rule-set `max_weekly_hours` value `w` replaces the default weekly
cap in the obligatory labor-law check, which therefore hard-blocks with
`weekly_hours_limit` exactly when slot hours plus existing-and-run hours of
the slot's ISO week exceed `w`; separately, the run-hours-only
`max_weekly_hours` check is soft in loose mode (never a hard block there, and
recorded as a soft violation exactly when run-week hours plus slot hours
exceed `w`). -/
theorem C10_weekly_cap (employee : Employee) (slot : OpenSlot) (rule : EmployeeRule)
    (prefs : Prefs) (is_applicant : Bool) (existing_shifts run_shifts : List Shift)
    (absences : List Absence) (fixed_patterns : List ((String × ℕ × String × String) × ℕ))
    (policy : Policy) (run_extra_month_hours : ℚ) (constraint_mode : String) (w : ℚ)
    (hw : rule.max_weekly_hours = some w) :
    effective_weekly_cap employee rule = w ∧
    ("weekly_hours_limit" ∈ (score_candidate employee slot rule prefs is_applicant existing_shifts
        run_shifts absences fixed_patterns policy run_extra_month_hours
        constraint_mode).blocked_reasons ↔
      slotHours slot + hours_in_week (existing_shifts ++ run_shifts) (week_key slot.date) > w) ∧
    (constraint_mode = "loose" →
      "max_weekly_hours" ∉ (score_candidate employee slot rule prefs is_applicant existing_shifts
          run_shifts absences fixed_patterns policy run_extra_month_hours
          constraint_mode).blocked_reasons ∧
      (hours_in_week run_shifts (week_key slot.date) + slotHours slot > w ↔
        ∃ l, (score_candidate employee slot rule prefs is_applicant existing_shifts
            run_shifts absences fixed_patterns policy run_extra_month_hours
            constraint_mode).soft_violations = some l ∧ "max_weekly_hours" ∈ l)) := by
  have hcap : effective_weekly_cap employee rule = w := by
    unfold effective_weekly_cap
    rw [hw]
  refine ⟨hcap, ?_, ?_⟩
  · unfold score_candidate
    dsimp only
    rw [mem_sortedSet, hcap]
    simp only [List.mem_append]
    constructor
    · rintro ((((((((h | h) | h) | h) | h) | h) | h) | h) | h)
      · exact absurd h (notMem_ite_singleton _ "no_additional_shifts" "weekly_hours_limit" (by decide))
      · exact absurd h (notMem_ite_singleton _ "absence" "weekly_hours_limit" (by decide))
      · exact absurd h (notMem_ite_singleton _ "already_has_shift_same_day" "weekly_hours_limit" (by decide))
      · exact (weekly_mem_arbzg existing_shifts run_shifts slot w _).mp h
      · exact absurd h (notMem_ite_singleton _ "monthly_hours_limit" "weekly_hours_limit" (by decide))
      · exact absurd h (notMem_ite_singleton _ "max_additional_monthly_hours" "weekly_hours_limit" (by decide))
      · exact absurd h (notMem_ite_singleton _ "max_weekly_hours" "weekly_hours_limit" (by decide))
      · exact absurd h (notMem_ite_singleton _ "max_salary_limit" "weekly_hours_limit" (by decide))
      · exact absurd (pref_violation_codes prefs slot _ (mem_of_mem_ite_nil _ _ _ h)) (by decide)
    · intro hcond
      exact Or.inl (Or.inl (Or.inl (Or.inl (Or.inl (Or.inr
        ((weekly_mem_arbzg existing_shifts run_shifts slot w _).mpr hcond))))))
  · intro hmode
    constructor
    · unfold score_candidate
      dsimp only
      rw [mem_sortedSet]
      simp only [List.mem_append]
      rintro ((((((((h | h) | h) | h) | h) | h) | h) | h) | h)
      · exact absurd h (notMem_ite_singleton _ "no_additional_shifts" "max_weekly_hours" (by decide))
      · exact absurd h (notMem_ite_singleton _ "absence" "max_weekly_hours" (by decide))
      · exact absurd h (notMem_ite_singleton _ "already_has_shift_same_day" "max_weekly_hours" (by decide))
      · exact absurd (arbzg_codes _ _ _ _ _ _ h) (by decide)
      · exact absurd h (notMem_ite_singleton _ "monthly_hours_limit" "max_weekly_hours" (by decide))
      · exact absurd h (notMem_ite_singleton _ "max_additional_monthly_hours" "max_weekly_hours" (by decide))
      · exact absurd h (notMem_ite_nil_of_not _ _ _ (by simp [hmode]))
      · exact absurd h (notMem_ite_singleton _ "max_salary_limit" "max_weekly_hours" (by decide))
      · exact absurd (pref_violation_codes prefs slot _ (mem_of_mem_ite_nil _ _ _ h)) (by decide)
    · unfold score_candidate
      dsimp only
      constructor
      · intro hcond
        have hhit : (match rule.max_weekly_hours with
            | some wcap => decide (hours_in_week run_shifts (week_key slot.date) + slotHours slot > wcap)
            | none => false) = true := by
          rw [hw]
          simpa using hcond
        refine exists_some_mem_of_ite _ _ ?_
        simp only [List.mem_append]
        refine Or.inl (Or.inr ?_)
        rw [if_pos ⟨hhit, hmode⟩]
        simp
      · rintro ⟨l, hl, hcmem⟩
        have hl' := eq_of_ite_some_nil _ _ _ hl
        subst hl'
        simp only [List.mem_append] at hcmem
        rcases hcmem with (((h | h) | h) | h)
        · exact absurd h (notMem_ite_singleton _ "monthly_hours_limit" "max_weekly_hours" (by decide))
        · exact absurd h (notMem_ite_singleton _ "max_additional_monthly_hours" "max_weekly_hours" (by decide))
        · have hc := (mem_ite_cond_true _ _ _ h)
          rw [hw] at hc
          simpa using hc.1
        · exact absurd (pref_violation_codes prefs slot _ (mem_of_mem_ite_nil _ _ _ h)) (by decide)

/-- Witness for C10: with a 10-hour weekly rule, an 8-hour existing shift in
the same ISO week plus the 8-hour fixture slot trips both checks. -/
theorem C10_weekly_cap_witness :
    ({ max_weekly_hours := some 10 } : EmployeeRule).max_weekly_hours = some 10 ∧
    (effective_weekly_cap fixtureEmp { max_weekly_hours := some 10 } = 10 ∧
      ("weekly_hours_limit" ∈ (score_candidate fixtureEmp fixtureSlot
          { max_weekly_hours := some 10 } {} false
          [{ date := "2026-10-14", start := "09:00", end_ := "17:00", hours := 8 }] [] [] [] {} 0
          "loose").blocked_reasons ↔
        slotHours fixtureSlot + hours_in_week
          ([{ date := "2026-10-14", start := "09:00", end_ := "17:00", hours := 8 }] ++ [])
          (week_key fixtureSlot.date) > 10) ∧
      ("loose" = "loose" →
        "max_weekly_hours" ∉ (score_candidate fixtureEmp fixtureSlot
            { max_weekly_hours := some 10 } {} false
            [{ date := "2026-10-14", start := "09:00", end_ := "17:00", hours := 8 }] [] [] [] {} 0
            "loose").blocked_reasons ∧
        (hours_in_week [] (week_key fixtureSlot.date) + slotHours fixtureSlot > 10 ↔
          ∃ l, (score_candidate fixtureEmp fixtureSlot { max_weekly_hours := some 10 } {} false
              [{ date := "2026-10-14", start := "09:00", end_ := "17:00", hours := 8 }] [] [] [] {}
              0 "loose").soft_violations = some l ∧ "max_weekly_hours" ∈ l))) :=
  ⟨rfl,
   C10_weekly_cap fixtureEmp fixtureSlot { max_weekly_hours := some 10 } {} false
     [{ date := "2026-10-14", start := "09:00", end_ := "17:00", hours := 8 }] [] [] [] {} 0
     "loose" 10 rfl⟩

/-- Witness for C8: the bounds at the concrete non-negative list `[1, 2, 3]`
(whose Gini coefficient is `2/9`). -/
theorem C8_gini_bounds_witness :
    (∀ v ∈ ([1, 2, 3] : List ℚ), 0 ≤ v) ∧ gini ([1, 2, 3] : List ℚ) = 2 / 9 ∧
    ((0 ≤ gini ([1, 2, 3] : List ℚ) ∧ gini ([1, 2, 3] : List ℚ) ≤ 1) ∧
      (0 ≤ gini_writer ([1, 2, 3] : List ℚ) ∧ gini_writer ([1, 2, 3] : List ℚ) ≤ 1) ∧
      gini ([] : List ℚ) = 0 ∧ gini ([0, 0, 0] : List ℚ) = 0) :=
  ⟨by decide, by decide, C8_gini_bounds ([1, 2, 3] : List ℚ) (by decide)⟩

/-! ## Theorems: claim C6 (salary-guard idempotence) -/

/-- Counterexample to C6 as stated: for the fixture mini-jobber (wage 10,
cap 50) on the 8-hour fixture slot, raising `max_salary` from 50 to 1000
(above the projected month cost of 80) removes `max_salary_limit` — but it
also removes `monthly_hours_limit` (the monthly cap was `max_salary / wage`)
and changes the score breakdown (the −12 near-salary-limit penalty
disappears), so the evaluation does not stay otherwise unchanged. -/
theorem C6_counterexample :
    "max_salary_limit" ∈ (score_candidate fixtureEmp fixtureSlot {} {} false [] [] [] [] {} 0
        "strict").blocked_reasons ∧
    (hours_in_month [] (month_key fixtureSlot.date) + hours_in_month [] (month_key fixtureSlot.date) +
        slotHours fixtureSlot) * fixtureEmp.hourly_wage.getD 0 ≤ 1000 ∧
    "monthly_hours_limit" ∈ (score_candidate fixtureEmp fixtureSlot {} {} false [] [] [] [] {} 0
        "strict").blocked_reasons ∧
    "monthly_hours_limit" ∉ (score_candidate { fixtureEmp with max_salary := some 1000 } fixtureSlot
        {} {} false [] [] [] [] {} 0 "strict").blocked_reasons ∧
    ¬((score_candidate { fixtureEmp with max_salary := some 1000 } fixtureSlot {} {} false [] [] []
        [] {} 0 "strict").score_detail =
      (score_candidate fixtureEmp fixtureSlot {} {} false [] [] [] [] {} 0
        "strict").score_detail) := by
  decide

/-- Membership in a conditional singleton forces equality with the code. -/
theorem eq_of_mem_ite_singleton (c : Prop) [Decidable c] (s x : String)
    (h : x ∈ (if c then [s] else [])) : x = s := by
  have h' := mem_of_mem_ite_nil _ _ _ h
  simpa using h'

/-- With `target_weekly_hours` set, the effective monthly cap does not depend
on the employee record (in particular not on `max_salary`). -/
theorem cap_indep_of_target (emp e' : Employee) (rule : EmployeeRule) (t : ℚ)
    (ht : rule.target_weekly_hours = some t) :
    effective_monthly_cap e' rule = effective_monthly_cap emp rule := by
  unfold effective_monthly_cap
  by_cases hd : rule.disable_max_hours
  · simp [hd]
  · simp only [hd, Bool.false_eq_true, if_false]
    cases rule.max_monthly_hours with
    | some m => rfl
    | none => rw [ht]

/-- With `target_weekly_hours` set, the scoring target does not depend on the
employee record. -/
theorem target_indep_of_target (emp e' : Employee) (rule : EmployeeRule) (t : ℚ)
    (ht : rule.target_weekly_hours = some t) :
    target_hours_for_scoring e' rule = target_hours_for_scoring emp rule := by
  unfold target_hours_for_scoring
  rw [ht]

/-- C6 (amended): when the monthly cap does not itself derive from
`max_salary` (here: `target_weekly_hours` is set), raising `max_salary` above
the projected month cost removes exactly `max_salary_limit` from the blocked
reasons; the soft violations and every score-breakdown component except the
salary-warning component are unchanged, and that component is the −12 penalty
exactly when the projected cost still exceeds 90 % of the new cap. -/
theorem C6_salary_raise (employee : Employee) (slot : OpenSlot) (rule : EmployeeRule)
    (prefs : Prefs) (is_applicant : Bool) (existing_shifts run_shifts : List Shift)
    (absences : List Absence) (fixed_patterns : List ((String × ℕ × String × String) × ℕ))
    (policy : Policy) (run_extra_month_hours : ℚ) (constraint_mode : String)
    (t S Snew : ℚ)
    (ht : rule.target_weekly_hours = some t)
    (hms : employee.max_salary = some S)
    (hw : employee.hourly_wage.getD 0 > 0)
    (hS : S > 0)
    (hblocked : (hours_in_month existing_shifts (month_key slot.date) +
        hours_in_month run_shifts (month_key slot.date) + slotHours slot) *
        employee.hourly_wage.getD 0 > S)
    (hraise : (hours_in_month existing_shifts (month_key slot.date) +
        hours_in_month run_shifts (month_key slot.date) + slotHours slot) *
        employee.hourly_wage.getD 0 ≤ Snew) :
    "max_salary_limit" ∈ (score_candidate employee slot rule prefs is_applicant existing_shifts
        run_shifts absences fixed_patterns policy run_extra_month_hours
        constraint_mode).blocked_reasons ∧
    (∀ r, r ∈ (score_candidate { employee with max_salary := some Snew } slot rule prefs
        is_applicant existing_shifts run_shifts absences fixed_patterns policy
        run_extra_month_hours constraint_mode).blocked_reasons ↔
      (r ∈ (score_candidate employee slot rule prefs is_applicant existing_shifts run_shifts
          absences fixed_patterns policy run_extra_month_hours constraint_mode).blocked_reasons ∧
        r ≠ "max_salary_limit")) ∧
    (score_candidate { employee with max_salary := some Snew } slot rule prefs is_applicant
        existing_shifts run_shifts absences fixed_patterns policy run_extra_month_hours
        constraint_mode).soft_violations =
      (score_candidate employee slot rule prefs is_applicant existing_shifts run_shifts absences
        fixed_patterns policy run_extra_month_hours constraint_mode).soft_violations ∧
    ((score_candidate { employee with max_salary := some Snew } slot rule prefs is_applicant
        existing_shifts run_shifts absences fixed_patterns policy run_extra_month_hours
        constraint_mode).score_detail.rest =
      (score_candidate employee slot rule prefs is_applicant existing_shifts run_shifts absences
        fixed_patterns policy run_extra_month_hours constraint_mode).score_detail.rest ∧
     (score_candidate { employee with max_salary := some Snew } slot rule prefs is_applicant
        existing_shifts run_shifts absences fixed_patterns policy run_extra_month_hours
        constraint_mode).score_detail.fairness =
      (score_candidate employee slot rule prefs is_applicant existing_shifts run_shifts absences
        fixed_patterns policy run_extra_month_hours constraint_mode).score_detail.fairness ∧
     (score_candidate { employee with max_salary := some Snew } slot rule prefs is_applicant
        existing_shifts run_shifts absences fixed_patterns policy run_extra_month_hours
        constraint_mode).score_detail.role =
      (score_candidate employee slot rule prefs is_applicant existing_shifts run_shifts absences
        fixed_patterns policy run_extra_month_hours constraint_mode).score_detail.role ∧
     (score_candidate { employee with max_salary := some Snew } slot rule prefs is_applicant
        existing_shifts run_shifts absences fixed_patterns policy run_extra_month_hours
        constraint_mode).score_detail.skill =
      (score_candidate employee slot rule prefs is_applicant existing_shifts run_shifts absences
        fixed_patterns policy run_extra_month_hours constraint_mode).score_detail.skill ∧
     (score_candidate { employee with max_salary := some Snew } slot rule prefs is_applicant
        existing_shifts run_shifts absences fixed_patterns policy run_extra_month_hours
        constraint_mode).score_detail.fixed =
      (score_candidate employee slot rule prefs is_applicant existing_shifts run_shifts absences
        fixed_patterns policy run_extra_month_hours constraint_mode).score_detail.fixed ∧
     (score_candidate { employee with max_salary := some Snew } slot rule prefs is_applicant
        existing_shifts run_shifts absences fixed_patterns policy run_extra_month_hours
        constraint_mode).score_detail.preference =
      (score_candidate employee slot rule prefs is_applicant existing_shifts run_shifts absences
        fixed_patterns policy run_extra_month_hours constraint_mode).score_detail.preference ∧
     (score_candidate { employee with max_salary := some Snew } slot rule prefs is_applicant
        existing_shifts run_shifts absences fixed_patterns policy run_extra_month_hours
        constraint_mode).score_detail.applicant =
      (score_candidate employee slot rule prefs is_applicant existing_shifts run_shifts absences
        fixed_patterns policy run_extra_month_hours constraint_mode).score_detail.applicant) ∧
    (score_candidate { employee with max_salary := some Snew } slot rule prefs is_applicant
        existing_shifts run_shifts absences fixed_patterns policy run_extra_month_hours
        constraint_mode).score_detail.salary =
      round2 (if (hours_in_month existing_shifts (month_key slot.date) +
          hours_in_month run_shifts (month_key slot.date) + slotHours slot) *
          employee.hourly_wage.getD 0 > (9 / 10) * Snew
        then SCORING_salary_warning_penalty else 0) := by
  have hprojpos : (hours_in_month existing_shifts (month_key slot.date) +
      hours_in_month run_shifts (month_key slot.date) + slotHours slot) *
      employee.hourly_wage.getD 0 > 0 := lt_trans hS hblocked
  have hSnew : Snew > 0 := lt_of_lt_of_le hprojpos hraise
  have hcap := cap_indep_of_target employee
    ⟨employee.ordio_employee_id, employee.full_name, employee.first_name, employee.username,
     employee.role, employee.employment, employee.hourly_wage, some Snew, employee.skills⟩
    rule t ht
  have htarget := target_indep_of_target employee
    ⟨employee.ordio_employee_id, employee.full_name, employee.first_name, employee.username,
     employee.role, employee.employment, employee.hourly_wage, some Snew, employee.skills⟩
    rule t ht
  unfold score_candidate
  dsimp only
  rw [hcap, htarget, hms]
  simp only [Option.getD_some]
  have hcondE : employee.hourly_wage.getD 0 > 0 ∧ S > 0 ∧
      (hours_in_month existing_shifts (month_key slot.date) +
        hours_in_month run_shifts (month_key slot.date) + slotHours slot) *
        employee.hourly_wage.getD 0 > S := ⟨hw, hS, hblocked⟩
  have hcondE' : ¬(employee.hourly_wage.getD 0 > 0 ∧ Snew > 0 ∧
      (hours_in_month existing_shifts (month_key slot.date) +
        hours_in_month run_shifts (month_key slot.date) + slotHours slot) *
        employee.hourly_wage.getD 0 > Snew) := by
    rintro ⟨-, -, h3⟩
    exact absurd h3 (not_lt.mpr hraise)
  rw [if_pos hcondE, if_neg hcondE']
  refine ⟨?_, ?_, by trivial, ⟨by trivial, by trivial, by trivial, by trivial, by trivial, by trivial, by trivial⟩, ?_⟩
  · rw [mem_sortedSet]
    simp only [List.mem_append]
    exact Or.inl (Or.inr (by simp))
  · intro r
    rw [mem_sortedSet, mem_sortedSet]
    simp only [List.mem_append, List.not_mem_nil, or_false, List.mem_singleton]
    constructor
    · intro h
      refine ⟨?_, ?_⟩
      · rcases h with hA | hP
        · exact Or.inl (Or.inl hA)
        · exact Or.inr hP
      · rcases h with hA | hP
        · rcases hA with ((((((h | h) | h) | h) | h) | h) | h)
          · rw [eq_of_mem_ite_singleton _ _ _ h]
            decide
          · rw [eq_of_mem_ite_singleton _ _ _ h]
            decide
          · rw [eq_of_mem_ite_singleton _ _ _ h]
            decide
          · intro hc
            subst hc
            exact absurd (arbzg_codes _ _ _ _ _ _ h) (by decide)
          · rw [eq_of_mem_ite_singleton _ _ _ h]
            decide
          · rw [eq_of_mem_ite_singleton _ _ _ h]
            decide
          · rw [eq_of_mem_ite_singleton _ _ _ h]
            decide
        · intro hc
          subst hc
          exact absurd (pref_violation_codes prefs slot _ (mem_of_mem_ite_nil _ _ _ hP))
            (by decide)
    · rintro ⟨h, hne⟩
      rcases h with (hA | hms') | hP
      · exact Or.inl hA
      · exact absurd hms' hne
      · exact Or.inr hP
  · rw [if_pos (⟨hw, hSnew⟩ : employee.hourly_wage.getD 0 > 0 ∧ Snew > 0)]
    dsimp only
    by_cases hx : (hours_in_month existing_shifts (month_key slot.date) +
        hours_in_month run_shifts (month_key slot.date) + slotHours slot) *
        employee.hourly_wage.getD 0 > (9 / 10) * Snew
    · rw [if_pos ⟨hSnew, hx⟩, if_pos hx]
    · rw [if_neg ?_, if_neg hx]
      rintro ⟨-, h2⟩
      exact hx h2

/-- Witness for C6 (amended): wage 10, salary cap 50 raised to 100, an 8-hour
slot and a 4-hour weekly target. -/
theorem C6_salary_raise_witness :
    (({ target_weekly_hours := some 4 } : EmployeeRule).target_weekly_hours = some 4 ∧
      ({ fixtureEmp with max_salary := some 50 } : Employee).max_salary = some 50 ∧
      ({ fixtureEmp with max_salary := some 50 } : Employee).hourly_wage.getD 0 > 0 ∧
      (50 : ℚ) > 0 ∧
      (hours_in_month [] (month_key fixtureSlot.date) + hours_in_month [] (month_key fixtureSlot.date) +
        slotHours fixtureSlot) * ({ fixtureEmp with max_salary := some 50 } : Employee).hourly_wage.getD 0 > 50 ∧
      (hours_in_month [] (month_key fixtureSlot.date) + hours_in_month [] (month_key fixtureSlot.date) +
        slotHours fixtureSlot) * ({ fixtureEmp with max_salary := some 50 } : Employee).hourly_wage.getD 0 ≤ 100) ∧
    "max_salary_limit" ∈ (score_candidate { fixtureEmp with max_salary := some 50 } fixtureSlot
        { target_weekly_hours := some 4 } {} false [] [] [] [] {} 0 "strict").blocked_reasons :=
  ⟨⟨rfl, rfl, by decide, by decide, by decide, by decide⟩,
   (C6_salary_raise { fixtureEmp with max_salary := some 50 } fixtureSlot
      { target_weekly_hours := some 4 } {} false [] [] [] [] {} 0 "strict" 4 50 100
      rfl rfl (by decide) (by decide) (by decide) (by decide)).1⟩

/-! ## Theorems: claim C2 (coverage) -/

/-- The multiset of slot ids covered by a run state (assigned or unassigned). -/
def planSlotIds (st : PlanState) : Multiset String :=
  (st.assignments.map (fun a => a.slot_id) : Multiset String) +
  (st.unassigned.map (fun u => u.slot_id) : Multiset String)

/-- Each slot processed adds exactly its own slot id to the covered multiset,
whether it ends up assigned or unassigned. -/
theorem allocStep_slotIds (ctx : AllocCtx) (acc : PlanState × List (String × List EvalRow))
    (slot : OpenSlot) :
    planSlotIds (allocStep ctx acc slot).1 = planSlotIds acc.1 + {slot.slot_id} := by
  unfold allocStep
  dsimp only
  split
  · simp only [planSlotIds, List.map_append, List.map_cons, List.map_nil]
    rw [Multiset.coe_add, add_assoc]
    congr 1
  · simp [planSlotIds, List.map_append, add_comm, add_left_comm, add_assoc]

/-- Each slot processed adds exactly one record, to exactly one of the two
lists. -/
theorem allocStep_lengths (ctx : AllocCtx) (acc : PlanState × List (String × List EvalRow))
    (slot : OpenSlot) :
    (allocStep ctx acc slot).1.assignments.length + (allocStep ctx acc slot).1.unassigned.length =
      acc.1.assignments.length + acc.1.unassigned.length + 1 := by
  unfold allocStep
  dsimp only
  split
  · simp only [List.length_append, List.length_singleton]
    omega
  · simp only [List.length_append, List.length_singleton]
    omega

theorem foldl_allocStep_lengths (ctx : AllocCtx) (slots : List OpenSlot) :
    ∀ acc : PlanState × List (String × List EvalRow),
      (slots.foldl (allocStep ctx) acc).1.assignments.length +
        (slots.foldl (allocStep ctx) acc).1.unassigned.length =
      acc.1.assignments.length + acc.1.unassigned.length + slots.length := by
  induction slots with
  | nil => intro acc; simp
  | cons s ss ih =>
    intro acc
    rw [List.foldl_cons, ih, allocStep_lengths]
    simp only [List.length_cons]
    omega

theorem foldl_allocStep_slotIds (ctx : AllocCtx) (slots : List OpenSlot) :
    ∀ acc : PlanState × List (String × List EvalRow),
      planSlotIds (slots.foldl (allocStep ctx) acc).1 =
        planSlotIds acc.1 + (slots.map (fun s => s.slot_id) : Multiset String) := by
  induction slots with
  | nil => intro acc; simp
  | cons s ss ih =>
    intro acc
    rw [List.foldl_cons, ih, allocStep_slotIds]
    simp only [List.map_cons]
    rw [add_assoc, ← Multiset.cons_coe, ← Multiset.singleton_add]

theorem foldl_allocStep_slotIds_sum (ctx : AllocCtx) (slots : List OpenSlot)
    (acc : PlanState × List (String × List EvalRow)) :
    ((slots.foldl (allocStep ctx) acc).1.assignments.map (fun a => a.slot_id) : Multiset String) +
      ((slots.foldl (allocStep ctx) acc).1.unassigned.map (fun u => u.slot_id) : Multiset String) =
      ((acc.1.assignments.map (fun a => a.slot_id) : Multiset String) +
        (acc.1.unassigned.map (fun u => u.slot_id) : Multiset String)) +
      (slots.map (fun s => s.slot_id) : Multiset String) := by
  have h := foldl_allocStep_slotIds ctx slots acc
  simpa only [planSlotIds] using h

/-- C2: `len(assignments) + len(unassigned)` equals the number of open slots
whose date lies in the requested range, and the combined multiset of covered
slot ids is exactly the multiset of in-range slot ids — every in-range slot is
represented exactly once, assigned or unassigned.  (`generate_plan` is a total
function of its inputs, so a slot without viable candidates cannot raise.) -/
theorem C2_coverage (snapshot : Snapshot) (range_from range_to profile_name : String)
    (profile : Profile) (constraint_mode uuid_hex now_iso : String) :
    (generate_plan snapshot range_from range_to profile_name profile constraint_mode uuid_hex
        now_iso).assignments.length +
      (generate_plan snapshot range_from range_to profile_name profile constraint_mode uuid_hex
        now_iso).unassigned.length =
      (snapshot.open_shifts.filter
        (fun s => pyStrLE range_from s.date ∧ pyStrLE s.date range_to)).length ∧
    ((generate_plan snapshot range_from range_to profile_name profile constraint_mode uuid_hex
        now_iso).assignments.map (fun a => a.slot_id) : Multiset String) +
      ((generate_plan snapshot range_from range_to profile_name profile constraint_mode uuid_hex
        now_iso).unassigned.map (fun u => u.slot_id) : Multiset String) =
      ((snapshot.open_shifts.filter
        (fun s => pyStrLE range_from s.date ∧ pyStrLE s.date range_to)).map
        (fun s => s.slot_id) : Multiset String) := by
  unfold generate_plan
  dsimp only
  constructor
  · rw [foldl_allocStep_lengths]
    simp [initial_state, length_sortByB]
  · rw [foldl_allocStep_slotIds_sum]
    simp only [initial_state, List.map_nil, Multiset.coe_nil, zero_add, add_zero]
    refine Multiset.coe_eq_coe.mpr ?_
    refine (List.Perm.map _ (perm_sortByB slotLE _)).trans ?_
    rw [List.map_map]
    exact List.Perm.rfl

/-! ## Theorems: claim C9 (unassigned reason codes) -/

/-- A slot can only be recorded unassigned with one of the two reachable
reason codes: the `all_applicants_blocked` and `no_valid_candidate` branches
are dead, because an empty selected pool forces the unblocked-candidates list
to be empty. -/
theorem allocStep_reasons (ctx : AllocCtx) (acc : PlanState × List (String × List EvalRow))
    (slot : OpenSlot)
    (hP : ∀ u ∈ acc.1.unassigned,
      u.reason = "no_candidates_available" ∨ u.reason = "all_candidates_blocked_by_constraints") :
    ∀ u ∈ (allocStep ctx acc slot).1.unassigned,
      u.reason = "no_candidates_available" ∨ u.reason = "all_candidates_blocked_by_constraints" := by
  unfold allocStep
  dsimp only
  split
  next heq =>
    intro u hu
    rcases List.mem_append.mp hu with hold | hnew
    · exact hP u hold
    · have hu' : u = _ := List.mem_singleton.mp hnew
      subst hu'
      dsimp only
      have hvalid : List.filter (fun e => !e.blocked) (sortByB evalLE (slotEvals ctx acc.1 slot)) = [] := by
        split at heq
        · split at heq
          next hne => exact absurd heq hne
          next => exact heq
        · exact heq
      by_cases h1 : sortByB evalLE (slotEvals ctx acc.1 slot) = []
      · rw [if_pos h1]
        exact Or.inl rfl
      · have hall : ((sortByB evalLE (slotEvals ctx acc.1 slot)).all fun e => e.blocked) = true := by
          rw [List.all_eq_true]
          intro e he
          by_contra hb
          have : e ∈ List.filter (fun e => !e.blocked) (sortByB evalLE (slotEvals ctx acc.1 slot)) := by
            rw [List.mem_filter]
            exact ⟨he, by simp [hb]⟩
          rw [hvalid] at this
          simp at this
        rw [if_neg h1, if_pos hall]
        exact Or.inr rfl
  next =>
    intro u hu
    exact hP u hu

theorem foldl_allocStep_reasons (ctx : AllocCtx) (slots : List OpenSlot) :
    ∀ acc : PlanState × List (String × List EvalRow),
      (∀ u ∈ acc.1.unassigned,
        u.reason = "no_candidates_available" ∨
        u.reason = "all_candidates_blocked_by_constraints") →
      ∀ u ∈ (slots.foldl (allocStep ctx) acc).1.unassigned,
        u.reason = "no_candidates_available" ∨
        u.reason = "all_candidates_blocked_by_constraints" := by
  induction slots with
  | nil => intro acc h; exact h
  | cons s ss ih =>
    intro acc h
    rw [List.foldl_cons]
    exact ih _ (allocStep_reasons ctx acc s h)

/-- C9: every unassigned record of a generated plan has reason
`no_candidates_available` or `all_candidates_blocked_by_constraints`; the
documented codes `all_applicants_blocked` and `no_valid_candidate` never
occur. -/
theorem C9_unassigned_reasons (snapshot : Snapshot) (range_from range_to profile_name : String)
    (profile : Profile) (constraint_mode uuid_hex now_iso : String) :
    ∀ u ∈ (generate_plan snapshot range_from range_to profile_name profile constraint_mode uuid_hex
        now_iso).unassigned,
      u.reason = "no_candidates_available" ∨
      u.reason = "all_candidates_blocked_by_constraints" := by
  unfold generate_plan
  dsimp only
  exact foldl_allocStep_reasons _ _ (initial_state, []) (by intro u hu; simp [initial_state] at hu)

/-- Witness for C9: a snapshot with no employees leaves the fixture slot
unassigned (necessarily with reason `no_candidates_available`). -/
theorem C9_unassigned_reasons_witness :
    (generate_plan { open_shifts := [fixtureSlot] } "2026-10-01" "2026-10-31" "default" {}
        "strict" "0123456789ab" "t0").unassigned.length = 1 ∧
    ∀ u ∈ (generate_plan { open_shifts := [fixtureSlot] } "2026-10-01" "2026-10-31" "default" {}
        "strict" "0123456789ab" "t0").unassigned,
      u.reason = "no_candidates_available" ∨
      u.reason = "all_candidates_blocked_by_constraints" :=
  ⟨by decide,
   C9_unassigned_reasons { open_shifts := [fixtureSlot] } "2026-10-01" "2026-10-31" "default" {}
     "strict" "0123456789ab" "t0"⟩

/-! ## Theorems: claim C3 (determinism) -/

/-- Counterexample to C3 as stated: two calls on identical inputs are not
byte-identical, because each call draws a fresh `uuid4()` for `plan_id` (and
reads the wall clock for `generated_at`); with different uuid draws the plans
differ. -/
theorem C3_counterexample :
    generate_plan {} "2026-10-01" "2026-10-31" "default" {} "strict" "000000000000" "t0" ≠
      generate_plan {} "2026-10-01" "2026-10-31" "default" {} "strict" "111111111111" "t0" := by
  decide

/-- C3 (amended): for fixed inputs the plan is a deterministic function of the
snapshot, range, profile and constraint mode — every field, in particular the
assignment order, scores and reason lists, is independent of the uuid draw and
the clock reading, except `plan_id` and `generated_at` themselves. -/
theorem C3_determinism (snapshot : Snapshot) (range_from range_to profile_name : String)
    (profile : Profile) (constraint_mode : String) (u1 n1 u2 n2 : String) :
    (generate_plan snapshot range_from range_to profile_name profile constraint_mode u1
        n1).assignments =
      (generate_plan snapshot range_from range_to profile_name profile constraint_mode u2
        n2).assignments ∧
    (generate_plan snapshot range_from range_to profile_name profile constraint_mode u1
        n1).unassigned =
      (generate_plan snapshot range_from range_to profile_name profile constraint_mode u2
        n2).unassigned ∧
    (generate_plan snapshot range_from range_to profile_name profile constraint_mode u1
        n1).metrics =
      (generate_plan snapshot range_from range_to profile_name profile constraint_mode u2
        n2).metrics ∧
    (generate_plan snapshot range_from range_to profile_name profile constraint_mode u1
        n1).fairness =
      (generate_plan snapshot range_from range_to profile_name profile constraint_mode u2
        n2).fairness ∧
    (generate_plan snapshot range_from range_to profile_name profile constraint_mode u1
        n1).evaluation_matrix =
      (generate_plan snapshot range_from range_to profile_name profile constraint_mode u2
        n2).evaluation_matrix ∧
    (generate_plan snapshot range_from range_to profile_name profile constraint_mode u1
        n1).soft_violations =
      (generate_plan snapshot range_from range_to profile_name profile constraint_mode u2
        n2).soft_violations ∧
    (generate_plan snapshot range_from range_to profile_name profile constraint_mode u1
        n1).snapshot_id =
      (generate_plan snapshot range_from range_to profile_name profile constraint_mode u2
        n2).snapshot_id ∧
    (generate_plan snapshot range_from range_to profile_name profile constraint_mode u1
        n1).betrieb =
      (generate_plan snapshot range_from range_to profile_name profile constraint_mode u2
        n2).betrieb ∧
    (generate_plan snapshot range_from range_to profile_name profile constraint_mode u1
        n1).range_from =
      (generate_plan snapshot range_from range_to profile_name profile constraint_mode u2
        n2).range_from ∧
    (generate_plan snapshot range_from range_to profile_name profile constraint_mode u1
        n1).range_to =
      (generate_plan snapshot range_from range_to profile_name profile constraint_mode u2
        n2).range_to ∧
    (generate_plan snapshot range_from range_to profile_name profile constraint_mode u1
        n1).profile =
      (generate_plan snapshot range_from range_to profile_name profile constraint_mode u2
        n2).profile ∧
    (generate_plan snapshot range_from range_to profile_name profile constraint_mode u1
        n1).profile_description =
      (generate_plan snapshot range_from range_to profile_name profile constraint_mode u2
        n2).profile_description ∧
    (generate_plan snapshot range_from range_to profile_name profile constraint_mode u1
        n1).explanation_policy =
      (generate_plan snapshot range_from range_to profile_name profile constraint_mode u2
        n2).explanation_policy :=
  ⟨rfl, rfl, rfl, rfl, rfl, rfl, rfl, rfl, rfl, rfl, rfl, rfl, rfl⟩
